import Mathlib

set_option maxHeartbeats 1000000
set_option maxRecDepth 4000

/-! Shallow embedding of the cineforge project-state store
    (src/project_utils.py) and task orchestrator (src/tasks.py). -/

/-- Association-list lookup keyed by decidable equality; models Python dict lookup
    (first matching key wins; Python dicts have unique keys). -/
def aget {κ α : Type} [DecidableEq κ] (l : List (κ × α)) (k : κ) : Option α :=
  match l with
  | [] => none
  | (k', v) :: rest => if k' = k then some v else aget rest k

/-- Association-list insert/replace; models Python dict assignment d[k] = v
    (existing key keeps its position, new keys are appended). -/
def aset {κ α : Type} [DecidableEq κ] (l : List (κ × α)) (k : κ) (v : α) : List (κ × α) :=
  match l with
  | [] => [(k, v)]
  | (k', v') :: rest => if k' = k then (k', v) :: rest else (k', v') :: aset rest k v

/-- Models Python dict.update: assign every pair of upd into base, in order. -/
def aupdate {κ α : Type} [DecidableEq κ] (base upd : List (κ × α)) : List (κ × α) :=
  upd.foldl (fun b kv => aset b kv.1 kv.2) base

/-- Models deletion of a key (Python del / SQL DELETE ... WHERE key). -/
def aremove {κ α : Type} [DecidableEq κ] (l : List (κ × α)) (k : κ) : List (κ × α) :=
  l.filter (fun p => decide (p.1 ≠ k))

theorem aget_aset_self {κ α : Type} [DecidableEq κ] (l : List (κ × α)) (k : κ) (v : α) :
    aget (aset l k v) k = some v := by
  induction l with
  | nil => simp [aget, aset]
  | cons hd tl ih =>
    by_cases h : hd.1 = k
    · simp [aget, aset, h]
    · simpa [aget, aset, h] using ih

theorem aget_aset_ne {κ α : Type} [DecidableEq κ] (l : List (κ × α)) (k k' : κ) (v : α)
    (h : k' ≠ k) : aget (aset l k v) k' = aget l k' := by
  induction l with
  | nil => simp [aget, aset, Ne.symm h]
  | cons hd tl ih =>
    by_cases hh : hd.1 = k
    · subst hh
      simp [aget, aset, Ne.symm h]
    · simp [aget, aset, hh, ih]

theorem aget_aremove_self {κ α : Type} [DecidableEq κ] (l : List (κ × α)) (k : κ) :
    aget (aremove l k) k = none := by
  induction l with
  | nil => simp [aget, aremove]
  | cons hd tl ih =>
    by_cases h : hd.1 = k
    · simpa [aremove, List.filter, h] using ih
    · simpa [aremove, List.filter, h, aget] using ih

/-- Python truthiness of an optional string: None and the empty string are falsy. -/
def strTruthy : Option String → Bool
  | none => false
  | some s => !s.isEmpty

/-- Canonical step keys for the pipeline (PIPELINE_STEPS in project_utils.py). -/
def PIPELINE_STEPS : List String :=
  ["narrative_deconstructed", "screenplay_generated", "storyboard_generated",
   "visual_assets_generated", "video_synthesized"]

/-- The recognized top-level artifact keys mirrored from step outputs. -/
def ARTIFACT_KEYS : List String :=
  ["schema_file", "screenplay_file", "storyboard_file", "video_file"]

/-- One pipeline step record. Output values are modelled as strings
    (the code only ever stores path strings); Python truthiness of a value
    is nonemptiness. -/
structure Step where
  status : String
  started_at : Option String
  finished_at : Option String
  error : Option String
  outputs : List (String × String)
deriving Repr, DecidableEq

/-- The default record for a freshly referenced step. -/
def defaultStep : Step :=
  { status := "not_started", started_at := none, finished_at := none,
    error := none, outputs := [] }

/-- The four top-level convenience artifact pointers. -/
structure Artifacts where
  schema_file : Option String
  screenplay_file : Option String
  storyboard_file : Option String
  video_file : Option String
deriving Repr, DecidableEq

def emptyArtifacts : Artifacts := ⟨none, none, none, none⟩

/-- History entry metadata: either the previous status or a (truncated) error text. -/
inductive HistMeta where
  | prev (status : String)
  | err (msg : String)
deriving Repr, DecidableEq

structure HistoryEntry where
  time : String
  event : String
  meta : HistMeta
deriving Repr, DecidableEq

/-- The logical per-project state (the JSON document shape). -/
structure ProjectState where
  project : String
  created_at : String
  updated_at : String
  steps : List (String × Step)
  artifacts : Artifacts
  history : List HistoryEntry
deriving Repr, DecidableEq

/-- Arguments of update_step: each of status/outputs/error is optional. -/
structure UpdateArgs where
  status : Option String
  outputs : Option (List (String × String))
  error : Option String
deriving Repr, DecidableEq

/-- Read one of the four artifact pointers by name. -/
def artGet (a : Artifacts) (k : String) : Option String :=
  if k = "schema_file" then a.schema_file
  else if k = "screenplay_file" then a.screenplay_file
  else if k = "storyboard_file" then a.storyboard_file
  else if k = "video_file" then a.video_file
  else none

/-- Write one of the four artifact pointers by name (other names are ignored,
    matching the fixed column set / fixed key loop in the code). -/
def artSet (a : Artifacts) (k : String) (v : Option String) : Artifacts :=
  if k = "schema_file" then { a with schema_file := v }
  else if k = "screenplay_file" then { a with screenplay_file := v }
  else if k = "storyboard_file" then { a with storyboard_file := v }
  else if k = "video_file" then { a with video_file := v }
  else a

/-- JSON-backend artifact mirroring (update_step lines 162-166):
    for each recognized key, if present in outputs with a truthy value,
    copy it to the top-level artifacts. -/
def mirrorArtifacts (a : Artifacts) (os : List (String × String)) : Artifacts :=
  ARTIFACT_KEYS.foldl
    (fun acc k =>
      match aget os k with
      | some v => if v = "" then acc else artSet acc k (some v)
      | none => acc)
    a

/-- The step record produced by update_step's three argument blocks
    (project_utils.py lines 146-178): a truthy status sets status and
    timestamps; truthy outputs merge; a present (even empty) error is stored
    and, when the status argument is None, marks the step failed. -/
def json_step_after (now : String) (step0 : Step) (a : UpdateArgs) : Step :=
  let step1 :=
    match a.status with
    | some s =>
      if s.isEmpty then step0
      else
        { step0 with
            status := s,
            started_at :=
              if s = "running" ∧ step0.started_at = none then some now else step0.started_at,
            finished_at :=
              if s = "success" ∨ s = "failed" then some now else step0.finished_at }
    | none => step0
  let step2 :=
    match a.outputs with
    | some os =>
      if os.isEmpty then step1 else { step1 with outputs := aupdate step1.outputs os }
    | none => step1
  match a.error with
  | some e =>
    if a.status = none then
      { step2 with error := some e, status := "failed", finished_at := some now }
    else { step2 with error := some e }
  | none => step2

/-- The history entries appended by one update_step call: one per truthy status
    argument, then one per present error argument (the latter truncated to 500
    characters). -/
def json_hist_after (now key : String) (step0 : Step) (a : UpdateArgs) : List HistoryEntry :=
  (match a.status with
   | some s =>
     if s.isEmpty then []
     else [{ time := now, event := "step:" ++ key ++ ":" ++ s, meta := .prev step0.status }]
   | none => []) ++
  (match a.error with
   | some e =>
     [({ time := now, event := "step:" ++ key ++ ":error",
         meta := HistMeta.err (e.take 500) } : HistoryEntry)]
   | none => [])

/-- Artifact mirroring of one update_step call: only a truthy outputs argument
    touches the artifacts. -/
def json_arts_after (arts : Artifacts) (a : UpdateArgs) : Artifacts :=
  match a.outputs with
  | some os => if os.isEmpty then arts else mirrorArtifacts arts os
  | none => arts

/-- The pure state mutation of update_step (project_utils.py lines 137-181,
    JSON backend), at a fixed current time `now`: ensure the step exists, apply
    the three argument blocks, append history, stamp updated_at. -/
def update_step_core (now : String) (key : String) (state : ProjectState)
    (a : UpdateArgs) : ProjectState :=
  let steps0 :=
    match aget state.steps key with
    | some _ => state.steps
    | none => aset state.steps key defaultStep
  let step0 := (aget steps0 key).getD defaultStep
  { state with
    steps := aset steps0 key (json_step_after now step0 a),
    artifacts := json_arts_after state.artifacts a,
    history := state.history ++ json_hist_after now key step0 a,
    updated_at := now }

/-- One character of re.sub(r'[^a-zA-Z0-9_-]', '_', name): ASCII letters, digits,
    underscore and hyphen survive, everything else becomes an underscore. -/
def sanitizeChar (c : Char) : Char :=
  if c.isAlpha ∨ c.isDigit ∨ c = '_' ∨ c = '-' then c else '_'

/-- The filename sanitization applied to project names: substitute every
    character of the name through sanitizeChar. -/
def sanitizeName (name : String) : String := String.mk (name.data.map sanitizeChar)

/-- get_project_path: PROJECTS_DIR joined with the sanitized name plus ".json". -/
def get_project_path (name : String) : String :=
  "output/projects/" ++ sanitizeName name ++ ".json"

/-- A stored file is either a well-formed state document or a malformed one
    whose parse raises with the given message. -/
inductive FileDoc where
  | ok (s : ProjectState)
  | malformed (err : String)
deriving Repr, DecidableEq

/-- The document backend's directory: path to file content. -/
abbrev Fs : Type := List (String × FileDoc)

/-- load_project, JSON branch: missing file is an explicit None; a malformed file
    raises from json.load (modelled as Except.error). -/
def load_project_json (fs : Fs) (name : String) : Except String (Option ProjectState) :=
  match aget fs (get_project_path name) with
  | none => .ok none
  | some (.ok s) => .ok (some s)
  | some (.malformed e) => .error e

/-- save_project, JSON branch (atomic replace of the whole document). -/
def save_project_json (fs : Fs) (name : String) (s : ProjectState) : Fs :=
  aset fs (get_project_path name) (.ok s)

/-- delete_project, JSON branch. -/
def delete_project_json (fs : Fs) (name : String) : Fs :=
  aremove fs (get_project_path name)

/-- _default_state at creation time `now`. -/
def _default_state (now : String) (name : String) : ProjectState :=
  { project := name, created_at := now, updated_at := now,
    steps := PIPELINE_STEPS.map (fun s => (s, defaultStep)),
    artifacts := emptyArtifacts, history := [] }

/-- init_project, JSON branch: return the existing state, or create, persist and
    return the default one. A malformed existing document propagates its error. -/
def init_project_json (now : String) (fs : Fs) (name : String) :
    Except String (Fs × ProjectState) :=
  match load_project_json fs name with
  | .error e => .error e
  | .ok (some s) => .ok (fs, s)
  | .ok none =>
    let st := _default_state now name
    .ok (save_project_json fs name st, st)

/-- update_step, JSON branch: ensure_project, mutate in memory, save. -/
def update_step_json (now : String) (fs : Fs) (name key : String) (a : UpdateArgs) :
    Except String (Fs × ProjectState) :=
  match init_project_json now fs name with
  | .error e => .error e
  | .ok (fs1, st) =>
    let st' := update_step_core now key st a
    .ok (save_project_json fs1 name st', st')

def sampleState : ProjectState :=
  { project := "p", created_at := "t0", updated_at := "t0",
    steps := PIPELINE_STEPS.map (fun s => (s, defaultStep)),
    artifacts := emptyArtifacts, history := [] }

/-! SQLite backend model (project_utils.py lines 206-412). -/

/-- What the steps.outputs_json column holds: a serialized mapping, or garbage
    that json.loads would raise on. -/
inductive OutputsBlob where
  | jsonOf (kvs : List (String × String))
  | garbage (raw : String)
deriving Repr, DecidableEq

/-- The defensive parse of outputs_json used by _sqlite_update_step and
    _sqlite_load_project: NULL/empty and malformed blobs both come back as {}. -/
def parseOutputs : Option OutputsBlob → List (String × String)
  | none => []
  | some (.jsonOf kvs) => kvs
  | some (.garbage _) => []

/-- One row of the steps table. -/
structure StepRow where
  status : String
  started_at : Option String
  finished_at : Option String
  error : Option String
  outputs_json : Option OutputsBlob
deriving Repr, DecidableEq

def defaultStepRow : StepRow :=
  { status := "not_started", started_at := none, finished_at := none,
    error := none, outputs_json := some (.jsonOf []) }

/-- One row of the history table (the autoincrement id is the list position). -/
structure HistRow where
  project : String
  time : String
  event : String
  meta : HistMeta
deriving Repr, DecidableEq

/-- The four tables of the relational schema, each keyed by its primary key. -/
structure Db where
  projects : List (String × (String × String))
  steps : List ((String × String) × StepRow)
  artifacts : List (String × Artifacts)
  history : List HistRow
deriving Repr, DecidableEq

/-- INSERT OR IGNORE of the canonical step rows for one project. -/
def seedRows (project : String) (keys : List String)
    (l : List ((String × String) × StepRow)) : List ((String × String) × StepRow) :=
  keys.foldl
    (fun acc s =>
      match aget acc (project, s) with
      | some _ => acc
      | none => acc ++ [((project, s), defaultStepRow)])
    l

/-- _sqlite_init_project: INSERT OR IGNORE the project row, the artifacts row and
    the canonical step rows. -/
def sqlite_init_project (now : String) (db : Db) (project : String) : Db :=
  let projects :=
    match aget db.projects project with
    | some _ => db.projects
    | none => db.projects ++ [(project, (now, now))]
  let artifacts :=
    match aget db.artifacts project with
    | some _ => db.artifacts
    | none => db.artifacts ++ [(project, emptyArtifacts)]
  let steps := seedRows project PIPELINE_STEPS db.steps
  { db with projects := projects, artifacts := artifacts, steps := steps }

/-- _sqlite_update_project_ts: set updated_at on the project row. -/
def sqlite_update_project_ts (now : String) (projects : List (String × (String × String)))
    (project : String) : List (String × (String × String)) :=
  match aget projects project with
  | some p => aset projects project (p.1, now)
  | none => projects

/-- The artifacts UPDATE of _sqlite_update_step: set each recognized, truthy
    output key's column (a dict comprehension filter in the code). -/
def sqliteMirror (a : Artifacts) (os : List (String × String)) : Artifacts :=
  os.foldl
    (fun acc kv =>
      if kv.1 ∈ ARTIFACT_KEYS ∧ kv.2 ≠ "" then artSet acc kv.1 (some kv.2) else acc)
    a

/-- The step row written back by _sqlite_update_step (lines 314-351): status
    truthiness drives the transition (note `not started_at`, Python truthiness,
    guards the started_at write), outputs merge into the defensively parsed
    blob, and a present error with a falsy status argument marks failure. -/
def sqlite_row_after (now : String) (row : StepRow) (a : UpdateArgs) : StepRow :=
  let t1 :=
    match a.status with
    | some s =>
      if s.isEmpty then (row.status, row.started_at, row.finished_at)
      else
        (s,
          (if s = "running" ∧ strTruthy row.started_at = false then some now else row.started_at),
          (if s = "success" ∨ s = "failed" then some now else row.finished_at))
    | none => (row.status, row.started_at, row.finished_at)
  let outs1 :=
    match a.outputs with
    | some os =>
      if os.isEmpty then parseOutputs row.outputs_json
      else aupdate (parseOutputs row.outputs_json) os
    | none => parseOutputs row.outputs_json
  let t2 :=
    match a.error with
    | some e =>
      (some e,
        (if strTruthy a.status = false then "failed" else t1.1),
        (if strTruthy a.status = false then some now else t1.2.2))
    | none => (row.error, t1.1, t1.2.2)
  { status := t2.2.1, started_at := t1.2.1, finished_at := t2.2.2,
    error := t2.1, outputs_json := some (.jsonOf outs1) }

/-- The history rows inserted by one _sqlite_update_step call. -/
def sqlite_hist_after (now project key : String) (row : StepRow) (a : UpdateArgs) :
    List HistRow :=
  (match a.status with
   | some s =>
     if s.isEmpty then []
     else [{ project := project, time := now, event := "step:" ++ key ++ ":" ++ s,
             meta := .prev row.status }]
   | none => []) ++
  (match a.error with
   | some e =>
     [({ project := project, time := now, event := "step:" ++ key ++ ":error",
         meta := HistMeta.err (e.take 500) } : HistRow)]
   | none => [])

/-- The artifacts-table effect of one _sqlite_update_step call: a truthy outputs
    argument UPDATEs the project's row through the recognized-key filter. -/
def sqlite_arts_table_after (t : List (String × Artifacts)) (project : String)
    (a : UpdateArgs) : List (String × Artifacts) :=
  match a.outputs with
  | some os =>
    if os.isEmpty then t
    else
      match aget t project with
      | some arts => aset t project (sqliteMirror arts os)
      | none => t
  | none => t

/-- _sqlite_update_step (lines 286-353): seed the project, fetch (or insert) the
    step row, compute the new row and history from the arguments, write back. -/
def sqlite_update_step (now : String) (db0 : Db) (project key : String) (a : UpdateArgs) : Db :=
  let dbA := sqlite_init_project now db0 project
  let fetch :=
    match aget dbA.steps (project, key) with
    | some r => (dbA, r)
    | none => ({ dbA with steps := dbA.steps ++ [((project, key), defaultStepRow)] }, defaultStepRow)
  let db := fetch.1
  let row := fetch.2
  { db with
    steps := aset db.steps (project, key) (sqlite_row_after now row a),
    artifacts := sqlite_arts_table_after db.artifacts project a,
    history := db.history ++ sqlite_hist_after now project key row a,
    projects := sqlite_update_project_ts now db.projects project }

/-- The logical step built from one steps-table row on load (outputs parsed
    defensively: malformed blobs come back empty). -/
def stepOfRow (r : StepRow) : Step :=
  { status := r.status, started_at := r.started_at, finished_at := r.finished_at,
    error := r.error, outputs := parseOutputs r.outputs_json }

/-- The steps-dict building loop of _sqlite_load_project. -/
def buildSteps (rows : List ((String × String) × StepRow)) : List (String × Step) :=
  rows.foldl (fun acc r => aset acc r.1.2 (stepOfRow r.2)) []

/-- The steps.setdefault loop of _sqlite_load_project that synthesizes missing
    canonical steps into the view. -/
def seedDefaults (keys : List String) (l : List (String × Step)) : List (String × Step) :=
  keys.foldl
    (fun acc s =>
      match aget acc s with
      | some _ => acc
      | none => aset acc s defaultStep)
    l

/-- _sqlite_load_project (lines 363-402): absent project gives None; step rows are
    collected, outputs parsed defensively, and canonical steps defaulted into the
    view; history is omitted from the returned state. -/
def sqlite_load_project (db : Db) (project : String) : Option ProjectState :=
  match aget db.projects project with
  | none => none
  | some p =>
    let arts := (aget db.artifacts project).getD emptyArtifacts
    let rows := db.steps.filter (fun r => decide (r.1.1 = project))
    let steps := seedDefaults PIPELINE_STEPS (buildSteps rows)
    some { project := project, created_at := p.1, updated_at := p.2,
           steps := steps, artifacts := arts, history := [] }

/-- _sqlite_delete_project: delete the project's rows from all four tables. -/
def sqlite_delete_project (db : Db) (project : String) : Db :=
  { projects := aremove db.projects project,
    steps := db.steps.filter (fun r => decide (r.1.1 ≠ project)),
    artifacts := aremove db.artifacts project,
    history := db.history.filter (fun r => decide (r.project ≠ project)) }

/-- The steps-table row serialized from a document step by _sqlite_upsert_full
    (status and timestamps copied, outputs re-serialized wholesale). -/
def rowOfStep (stp : Step) : StepRow :=
  { status := stp.status, started_at := stp.started_at,
    finished_at := stp.finished_at, error := stp.error,
    outputs_json := some (.jsonOf stp.outputs) }

/-- _sqlite_upsert_full: best-effort import of a whole JSON state. A falsy project
    name aborts silently; otherwise overwrite the artifacts row and upsert every
    step of the document wholesale. -/
def sqlite_upsert_full (now : String) (db0 : Db) (state : ProjectState) : Db :=
  if state.project = "" then db0
  else
    let db := sqlite_init_project now db0 state.project
    let steps := state.steps.foldl
      (fun acc kv => aset acc (state.project, kv.1) (rowOfStep kv.2))
      db.steps
    { db with
      artifacts := aset db.artifacts state.project state.artifacts,
      steps := steps,
      projects := sqlite_update_project_ts now db.projects state.project }

/-! Migration utility (project_utils.py lines 463-488). -/

/-- What one directory entry parses to: a parse failure, a parsed non-dict
    value, or a parsed dict state (whose project field may be falsy). -/
inductive JsonFile where
  | invalid (err : String)
  | nondict
  | dict (s : ProjectState)
deriving Repr, DecidableEq

structure MigrationSummary where
  migrated : Nat
  skipped : Nat
  errors : List (String × String)
deriving Repr, DecidableEq

/-- One loop iteration of migrate_json_states_to_sqlite. -/
def migrate_step (now src : String) (acc : Db × MigrationSummary) (fe : String × JsonFile) :
    Db × MigrationSummary :=
  if fe.1.endsWith ".json" then
    match fe.2 with
    | .invalid err =>
      (acc.1, { acc.2 with errors := acc.2.errors ++ [(src ++ "/" ++ fe.1, err)] })
    | .nondict => (acc.1, { acc.2 with skipped := acc.2.skipped + 1 })
    | .dict s =>
      if s.project = "" then (acc.1, { acc.2 with skipped := acc.2.skipped + 1 })
      else (sqlite_upsert_full now acc.1 s, { acc.2 with migrated := acc.2.migrated + 1 })
  else acc

/-- migrate_json_states_to_sqlite: fold over the directory listing, counting
    migrated/skipped documents and collecting per-file errors. -/
def migrate_json_states_to_sqlite (now src : String) (db0 : Db)
    (files : List (String × JsonFile)) : Db × MigrationSummary :=
  files.foldl (migrate_step now src) (db0, { migrated := 0, skipped := 0, errors := [] })

/-! Task orchestrator (src/tasks.py). -/

/-- The logical step of a state at a key (auto-created steps default). -/
def stepOfState (st : ProjectState) (k : String) : Step :=
  (aget st.steps k).getD defaultStep

/-- The step row of a database at a project/key (absent rows default). -/
def rowOfDb (db : Db) (p k : String) : StepRow :=
  (aget db.steps (p, k)).getD defaultStepRow

/-- The artifacts value reached by one _sqlite_update_step call on the
    project's (present) artifacts row. -/
def sqlite_arts_after (arts : Artifacts) (a : UpdateArgs) : Artifacts :=
  match a.outputs with
  | some os => if os.isEmpty then arts else sqliteMirror arts os
  | none => arts

/-! Association-list and seeding lemmas. -/

theorem aget_append {κ α : Type} [DecidableEq κ] (l1 l2 : List (κ × α)) (k : κ) :
    aget (l1 ++ l2) k = match aget l1 k with | some v => some v | none => aget l2 k := by
  induction l1 with
  | nil => simp [aget]
  | cons hd tl ih =>
    by_cases h : hd.1 = k <;> simp [aget, h, ih]

theorem aget_seedRows (project : String) (keys : List String)
    (l : List ((String × String) × StepRow)) (k : String × String) :
    aget (seedRows project keys l) k =
      match aget l k with
      | some r => some r
      | none => if k.1 = project ∧ k.2 ∈ keys then some defaultStepRow else none := by
  induction keys generalizing l with
  | nil => cases h : aget l k <;> simp [seedRows, h]
  | cons s keys ih =>
    have step1 : seedRows project (s :: keys) l =
        seedRows project keys
          (match aget l (project, s) with
           | some _ => l
           | none => l ++ [((project, s), defaultStepRow)]) := by
      cases h : aget l (project, s) <;> simp [seedRows, h]
    rw [step1, ih]
    by_cases hkey : k = (project, s)
    · subst hkey
      cases h : aget l (project, s) with
      | some r => simp [h]
      | none => simp [h, aget_append, aget, List.mem_cons]
    · have hif : (k.1 = project ∧ k.2 ∈ s :: keys) ↔ (k.1 = project ∧ k.2 ∈ keys) := by
        constructor
        · rintro ⟨h1, h2⟩
          rcases List.mem_cons.mp h2 with h2 | h2
          · exact absurd (Prod.ext h1 h2) hkey
          · exact ⟨h1, h2⟩
        · rintro ⟨h1, h2⟩
          exact ⟨h1, List.mem_cons_of_mem _ h2⟩
      cases h : aget l (project, s) with
      | some r => cases hk : aget l k <;> simp only [hk, hif]
      | none =>
        have hx : aget (l ++ [((project, s), defaultStepRow)]) k = aget l k := by
          rw [aget_append]
          cases hk : aget l k <;> simp [aget, Ne.symm hkey]
        rw [hx]
        cases hk : aget l k <;> simp only [hk, hif]

/-! Characterization of update_step_core (JSON backend). -/

theorem stepOfState_update_self (now key : String) (st : ProjectState) (a : UpdateArgs) :
    stepOfState (update_step_core now key st a) key =
      json_step_after now (stepOfState st key) a := by
  unfold update_step_core stepOfState
  cases h : aget st.steps key <;> simp [h, aget_aset_self]

theorem stepOfState_update_ne (now key k' : String) (st : ProjectState) (a : UpdateArgs)
    (h : k' ≠ key) :
    stepOfState (update_step_core now key st a) k' = stepOfState st k' := by
  unfold update_step_core stepOfState
  cases hh : aget st.steps key <;>
    simp [hh, aget_aset_ne _ _ _ _ h]

theorem update_core_history (now key : String) (st : ProjectState) (a : UpdateArgs) :
    (update_step_core now key st a).history =
      st.history ++ json_hist_after now key (stepOfState st key) a := by
  unfold update_step_core stepOfState
  cases h : aget st.steps key <;> simp [h, aget_aset_self]

theorem update_core_artifacts (now key : String) (st : ProjectState) (a : UpdateArgs) :
    (update_step_core now key st a).artifacts = json_arts_after st.artifacts a := rfl

/-! Characterization of _sqlite_update_step. -/

theorem init_steps (now : String) (db : Db) (p : String) :
    (sqlite_init_project now db p).steps = seedRows p PIPELINE_STEPS db.steps := rfl

theorem init_history (now : String) (db : Db) (p : String) :
    (sqlite_init_project now db p).history = db.history := rfl

theorem init_projects_get_self (now : String) (db : Db) (p : String) :
    aget (sqlite_init_project now db p).projects p =
      some ((aget db.projects p).getD (now, now)) := by
  unfold sqlite_init_project
  cases h : aget db.projects p <;> simp [h, aget_append, aget]

theorem init_projects_get_ne (now : String) (db : Db) (p q : String) (h : q ≠ p) :
    aget (sqlite_init_project now db p).projects q = aget db.projects q := by
  unfold sqlite_init_project
  cases hh : aget db.projects p <;>
    simp [hh, aget_append, aget, Ne.symm h] <;>
    cases hq : aget db.projects q <;> simp [hq]

theorem init_artifacts_get_self (now : String) (db : Db) (p : String) :
    aget (sqlite_init_project now db p).artifacts p =
      some ((aget db.artifacts p).getD emptyArtifacts) := by
  unfold sqlite_init_project
  cases h : aget db.artifacts p <;> simp [h, aget_append, aget]

theorem init_artifacts_get_ne (now : String) (db : Db) (p q : String) (h : q ≠ p) :
    aget (sqlite_init_project now db p).artifacts q = aget db.artifacts q := by
  unfold sqlite_init_project
  cases hh : aget db.artifacts p <;>
    simp [hh, aget_append, aget, Ne.symm h] <;>
    cases hq : aget db.artifacts q <;> simp [hq]

theorem rowOfDb_init (now : String) (db : Db) (p k : String) :
    rowOfDb (sqlite_init_project now db p) p k = rowOfDb db p k := by
  unfold rowOfDb
  rw [init_steps, aget_seedRows]
  cases h : aget db.steps (p, k) with
  | some r => simp
  | none => by_cases hc : k ∈ PIPELINE_STEPS <;> simp [hc]

/-- Normal form of one _sqlite_update_step call. -/
theorem sqlite_update_step_eq (now : String) (db : Db) (p k : String) (a : UpdateArgs) :
    sqlite_update_step now db p k a =
      (let dbA := sqlite_init_project now db p
       let stepsB :=
         match aget dbA.steps (p, k) with
         | some _ => dbA.steps
         | none => dbA.steps ++ [((p, k), defaultStepRow)]
       { dbA with
         steps := aset stepsB (p, k) (sqlite_row_after now (rowOfDb db p k) a),
         artifacts := sqlite_arts_table_after dbA.artifacts p a,
         history := dbA.history ++ sqlite_hist_after now p k (rowOfDb db p k) a,
         projects := sqlite_update_project_ts now dbA.projects p }) := by
  unfold sqlite_update_step
  have hA : aget (sqlite_init_project now db p).steps (p, k) =
      match aget db.steps (p, k) with
      | some r => some r
      | none => if (p, k).1 = p ∧ (p, k).2 ∈ PIPELINE_STEPS then some defaultStepRow else none := by
    rw [init_steps, aget_seedRows]
  cases h : aget (sqlite_init_project now db p).steps (p, k) with
  | some r =>
    have hrow : rowOfDb db p k = r := by
      rw [hA] at h
      unfold rowOfDb
      cases h0 : aget db.steps (p, k) with
      | some r0 => rw [h0] at h; simp at h; simp [h]
      | none =>
        rw [h0] at h
        by_cases hc : k ∈ PIPELINE_STEPS <;> simp [hc] at h <;> simp [h]
    simp [h, hrow]
  | none =>
    have hrow : rowOfDb db p k = defaultStepRow := by
      rw [hA] at h
      unfold rowOfDb
      cases h0 : aget db.steps (p, k) with
      | some r0 => rw [h0] at h; simp at h
      | none => simp
    simp [h, hrow]

theorem sqlite_update_steps_self (now : String) (db : Db) (p k : String) (a : UpdateArgs) :
    aget (sqlite_update_step now db p k a).steps (p, k) =
      some (sqlite_row_after now (rowOfDb db p k) a) := by
  rw [sqlite_update_step_eq]
  cases h : aget (sqlite_init_project now db p).steps (p, k) <;>
    simp [h, aget_aset_self]

theorem sqlite_update_history (now : String) (db : Db) (p k : String) (a : UpdateArgs) :
    (sqlite_update_step now db p k a).history =
      db.history ++ sqlite_hist_after now p k (rowOfDb db p k) a := by
  rw [sqlite_update_step_eq]
  cases h : aget (sqlite_init_project now db p).steps (p, k) <;>
    simp [h, init_history]

theorem sqlite_update_artifacts_self (now : String) (db : Db) (p k : String) (a : UpdateArgs) :
    aget (sqlite_update_step now db p k a).artifacts p =
      some (sqlite_arts_after ((aget db.artifacts p).getD emptyArtifacts) a) := by
  rw [sqlite_update_step_eq]
  cases ao : a.outputs with
  | none =>
    simp [sqlite_arts_table_after, sqlite_arts_after, ao, init_artifacts_get_self]
  | some os =>
    by_cases he : os.isEmpty
    · simp [sqlite_arts_table_after, sqlite_arts_after, ao, he, init_artifacts_get_self]
    · simp [sqlite_arts_table_after, sqlite_arts_after, ao, he, init_artifacts_get_self,
        aget_aset_self]

theorem sqlite_update_projects_ne (now : String) (db : Db) (p k : String) (a : UpdateArgs)
    (q : String) (h : q ≠ p) :
    aget (sqlite_update_step now db p k a).projects q = aget db.projects q := by
  rw [sqlite_update_step_eq]
  have hts : aget (sqlite_update_project_ts now (sqlite_init_project now db p).projects p) q =
      aget (sqlite_init_project now db p).projects q := by
    unfold sqlite_update_project_ts
    cases hh : aget (sqlite_init_project now db p).projects p <;>
      simp [hh, aget_aset_ne _ _ _ _ h]
  simp only []
  rw [hts, init_projects_get_ne _ _ _ _ h]

theorem sqlite_update_artifacts_get_ne (now : String) (db : Db) (p k : String) (a : UpdateArgs)
    (q : String) (h : q ≠ p) :
    aget (sqlite_update_step now db p k a).artifacts q = aget db.artifacts q := by
  rw [sqlite_update_step_eq]
  have harts : aget (sqlite_arts_table_after (sqlite_init_project now db p).artifacts p a) q =
      aget (sqlite_init_project now db p).artifacts q := by
    unfold sqlite_arts_table_after
    cases ao : a.outputs with
    | none => rfl
    | some os =>
      by_cases he : os.isEmpty
      · simp [he]
      · cases hh : aget (sqlite_init_project now db p).artifacts p <;>
          simp [he, hh, aget_aset_ne _ _ _ _ h]
  simpa using harts.trans (init_artifacts_get_ne _ _ _ _ h)

theorem filter_aset {κ α : Type} [DecidableEq κ] (P : κ × α → Bool) (l : List (κ × α))
    (k : κ) (v : α) (h : ∀ w, P (k, w) = false) :
    List.filter P (aset l k v) = List.filter P l := by
  induction l with
  | nil => simp [aset, List.filter, h]
  | cons hd tl ih =>
    by_cases hh : hd.1 = k
    · have h1 : P (hd.1, v) = false := by rw [hh]; exact h v
      have h2 : P hd = false := by
        have hx : hd = (hd.1, hd.2) := rfl
        rw [hx, hh]; exact h hd.2
      simp [aset, hh, List.filter_cons, h1, h2, h]
    · simp [aset, hh, List.filter_cons, ih]

theorem filter_seedRows (p : String) (keys : List String)
    (l : List ((String × String) × StepRow)) (P : (String × String) × StepRow → Bool)
    (h : ∀ s r, P ((p, s), r) = false) :
    List.filter P (seedRows p keys l) = List.filter P l := by
  induction keys generalizing l with
  | nil => rfl
  | cons s keys ih =>
    have hstep : seedRows p (s :: keys) l =
        seedRows p keys
          (match aget l (p, s) with
           | some _ => l
           | none => l ++ [((p, s), defaultStepRow)]) := by
      cases hh : aget l (p, s) <;> simp [seedRows, hh]
    rw [hstep]
    cases hh : aget l (p, s) with
    | some r => simp only [hh]; exact ih l
    | none =>
      simp only [hh]
      rw [ih, List.filter_append]
      simp [List.filter, h]

theorem sqlite_update_steps_filter_ne (now : String) (db : Db) (p k : String) (a : UpdateArgs)
    (q : String) (h : q ≠ p) :
    (sqlite_update_step now db p k a).steps.filter (fun r => decide (r.1.1 = q)) =
      db.steps.filter (fun r => decide (r.1.1 = q)) := by
  rw [sqlite_update_step_eq]
  simp only []
  have hP : ∀ w : StepRow,
      (fun r : (String × String) × StepRow => decide (r.1.1 = q)) ((p, k), w) = false := by
    intro w
    simp [Ne.symm h]
  rw [filter_aset _ _ _ _ hP]
  cases hh : aget (sqlite_init_project now db p).steps (p, k) with
  | some r =>
    simp only [hh]
    rw [init_steps, filter_seedRows]
    intro s r
    simp [Ne.symm h]
  | none =>
    simp only [hh]
    rw [List.filter_append, init_steps, filter_seedRows]
    · simp [List.filter, Ne.symm h]
    · intro s r
      simp [Ne.symm h]

theorem sqlite_load_after_update_ne (now : String) (db : Db) (p k : String) (a : UpdateArgs)
    (q : String) (h : q ≠ p) :
    sqlite_load_project (sqlite_update_step now db p k a) q = sqlite_load_project db q := by
  unfold sqlite_load_project
  rw [sqlite_update_projects_ne now db p k a q h,
      sqlite_update_artifacts_get_ne now db p k a q h,
      sqlite_update_steps_filter_ne now db p k a q h]

/-! Artifact pointer lemmas. -/

theorem isEmpty_false_of_ne (s : String) (h : s ≠ "") : s.isEmpty = false := by
  cases hb : s.isEmpty with
  | false => rfl
  | true => exact absurd ((String.isEmpty_iff s).mp hb) h

theorem strTruthy_some (s : String) (h : s ≠ "") : strTruthy (some s) = true := by
  simp [strTruthy, isEmpty_false_of_ne s h]

theorem artGet_artSet_self (a : Artifacts) (k : String) (v : Option String)
    (hk : k ∈ ARTIFACT_KEYS) : artGet (artSet a k v) k = v := by
  simp [ARTIFACT_KEYS] at hk
  rcases hk with rfl | rfl | rfl | rfl <;> simp [artGet, artSet]

theorem artGet_artSet_ne (a : Artifacts) (k k' : String) (v : Option String)
    (h : k' ≠ k) : artGet (artSet a k v) k' = artGet a k' := by
  unfold artGet artSet
  split_ifs <;> simp_all

theorem artSet_unrecognized (a : Artifacts) (k : String) (v : Option String)
    (hk : k ∉ ARTIFACT_KEYS) : artSet a k v = a := by
  simp [ARTIFACT_KEYS] at hk
  unfold artSet
  simp [hk.1, hk.2.1, hk.2.2.1, hk.2.2.2]

theorem artGet_mirror (arts : Artifacts) (os : List (String × String)) (k v : String)
    (hk : k ∈ ARTIFACT_KEYS) (hv : aget os k = some v) (hne : v ≠ "") :
    artGet (mirrorArtifacts arts os) k = some v := by
  have keep : ∀ (a : Artifacts) (kk : String), kk ≠ k →
      artGet (match aget os kk with
        | some w => if w = "" then a else artSet a kk (some w)
        | none => a) k = artGet a k := by
    intro a kk hkk
    cases hw : aget os kk with
    | none => rfl
    | some w =>
      by_cases hw0 : w = "" <;> simp [hw0, artGet_artSet_ne _ _ _ _ (Ne.symm hkk)]
  have setk : ∀ (a : Artifacts),
      artGet (match aget os k with
        | some w => if w = "" then a else artSet a k (some w)
        | none => a) k = some v := by
    intro a
    rw [hv]
    simp [hne, artGet_artSet_self _ _ _ hk]
  have hk4 := hk
  simp [ARTIFACT_KEYS] at hk4
  unfold mirrorArtifacts ARTIFACT_KEYS
  simp only [List.foldl]
  rcases hk4 with rfl | rfl | rfl | rfl
  · rw [keep _ _ (by decide), keep _ _ (by decide), keep _ _ (by decide), setk]
  · rw [keep _ _ (by decide), keep _ _ (by decide), setk]
  · rw [keep _ _ (by decide), setk]
  · rw [setk]

theorem strTruthy_artGet_artSet (a : Artifacts) (k k' v : String) (hv : v ≠ "")
    (h : strTruthy (artGet a k) = true) :
    strTruthy (artGet (artSet a k' (some v)) k) = true := by
  by_cases hk : k = k'
  · subst hk
    by_cases hmem : k ∈ ARTIFACT_KEYS
    · rw [artGet_artSet_self _ _ _ hmem]
      exact strTruthy_some v hv
    · rw [artSet_unrecognized _ _ _ hmem]
      exact h
  · rw [artGet_artSet_ne _ _ _ _ hk]
    exact h

theorem strTruthy_mirror (arts : Artifacts) (os : List (String × String)) (k : String)
    (h : strTruthy (artGet arts k) = true) :
    strTruthy (artGet (mirrorArtifacts arts os) k) = true := by
  have step : ∀ (a : Artifacts) (kk : String), strTruthy (artGet a k) = true →
      strTruthy (artGet (match aget os kk with
        | some w => if w = "" then a else artSet a kk (some w)
        | none => a) k) = true := by
    intro a kk ha
    cases hw : aget os kk with
    | none => exact ha
    | some w =>
      by_cases hw0 : w = ""
      · simpa [hw0] using ha
      · simpa [hw0] using strTruthy_artGet_artSet a k kk w hw0 ha
  unfold mirrorArtifacts ARTIFACT_KEYS
  simp only [List.foldl]
  exact step _ _ (step _ _ (step _ _ (step _ _ h)))

theorem strTruthy_sqliteMirror (arts : Artifacts) (os : List (String × String)) (k : String)
    (h : strTruthy (artGet arts k) = true) :
    strTruthy (artGet (sqliteMirror arts os) k) = true := by
  induction os generalizing arts with
  | nil => exact h
  | cons kv os ih =>
    unfold sqliteMirror at ih ⊢
    rw [List.foldl_cons]
    by_cases hc : kv.1 ∈ ARTIFACT_KEYS ∧ kv.2 ≠ ""
    · simpa [hc] using ih _ (strTruthy_artGet_artSet _ _ _ _ hc.2 h)
    · simpa [hc] using ih _ h

theorem sqliteMirror_keep (arts : Artifacts) (os : List (String × String)) (k : String)
    (h : k ∉ os.map Prod.fst) :
    artGet (sqliteMirror arts os) k = artGet arts k := by
  induction os generalizing arts with
  | nil => rfl
  | cons kv os ih =>
    have hne : kv.1 ≠ k := by
      intro hc
      apply h
      rw [List.map_cons]
      exact List.mem_cons.mpr (Or.inl hc.symm)
    have htl : k ∉ os.map Prod.fst := by
      intro hc
      apply h
      rw [List.map_cons]
      exact List.mem_cons.mpr (Or.inr hc)
    unfold sqliteMirror at ih ⊢
    simp only [List.foldl_cons]
    by_cases hc : kv.1 ∈ ARTIFACT_KEYS ∧ kv.2 ≠ ""
    · rw [if_pos hc, ih _ htl, artGet_artSet_ne _ _ _ _ (Ne.symm hne)]
    · rw [if_neg hc, ih _ htl]

theorem artGet_sqliteMirror (arts : Artifacts) (os : List (String × String)) (k v : String)
    (hk : k ∈ ARTIFACT_KEYS) (hnd : (os.map Prod.fst).Nodup)
    (hmem : (k, v) ∈ os) (hv : v ≠ "") :
    artGet (sqliteMirror arts os) k = some v := by
  induction os generalizing arts with
  | nil => cases hmem
  | cons kv os ih =>
    obtain ⟨k0, v0⟩ := kv
    have hnd2 : k0 ∉ os.map Prod.fst ∧ (os.map Prod.fst).Nodup := by
      rw [List.map_cons] at hnd
      exact List.nodup_cons.mp hnd
    unfold sqliteMirror at ih ⊢
    simp only [List.foldl_cons]
    rcases List.mem_cons.mp hmem with heq | hmem'
    · injection heq with h1 h2
      subst h1
      subst h2
      rw [if_pos ⟨hk, hv⟩]
      have hkeep := sqliteMirror_keep (artSet arts k (some v)) os k hnd2.1
      unfold sqliteMirror at hkeep
      rw [hkeep, artGet_artSet_self _ _ _ hk]
    · by_cases hc : k0 ∈ ARTIFACT_KEYS ∧ v0 ≠ ""
      · rw [if_pos hc]
        exact ih _ hnd2.2 hmem'
      · rw [if_neg hc]
        exact ih _ hnd2.2 hmem'

/-! Step-field lemmas about one update (both backends). -/

theorem json_step_after_started_of_some (now : String) (s0 : Step) (a : UpdateArgs) (t : String)
    (h : s0.started_at = some t) :
    (json_step_after now s0 a).started_at = some t := by
  rcases a with ⟨s, o, e⟩
  unfold json_step_after
  cases s with
  | none => cases o <;> cases e <;> simp [h] <;> split_ifs <;> simp [h]
  | some sv =>
    by_cases hs : sv.isEmpty <;> cases o <;> cases e <;> simp [h, hs] <;> split_ifs <;> simp_all

theorem json_step_after_started_running (now : String) (s0 : Step) (a : UpdateArgs)
    (h0 : s0.started_at = none) (hs : a.status = some "running") :
    (json_step_after now s0 a).started_at = some now := by
  rcases a with ⟨s, o, e⟩
  simp only at hs
  subst hs
  unfold json_step_after
  have hr : ("running" : String).isEmpty = false := by decide
  cases o <;> cases e <;> simp [h0, hr] <;> split_ifs <;> rfl

theorem json_step_after_finished_terminal (now : String) (s0 : Step) (a : UpdateArgs)
    (hs : a.status = some "success" ∨ a.status = some "failed") :
    (json_step_after now s0 a).finished_at = some now := by
  rcases a with ⟨s, o, e⟩
  simp only at hs
  have h1 : ("success" : String).isEmpty = false := by decide
  have h2 : ("failed" : String).isEmpty = false := by decide
  rcases hs with hs | hs <;> subst hs <;> unfold json_step_after <;>
    cases o <;> cases e <;> simp [h1, h2] <;> split_ifs <;> rfl

theorem sqlite_row_after_started_of_some (now : String) (r : StepRow) (a : UpdateArgs)
    (t : String) (ht : t ≠ "") (h : r.started_at = some t) :
    (sqlite_row_after now r a).started_at = some t := by
  rcases a with ⟨s, o, e⟩
  unfold sqlite_row_after
  have htt : strTruthy (some t) = true := strTruthy_some t ht
  cases s with
  | none => cases o <;> cases e <;> simp [h]
  | some sv =>
    by_cases hs : sv.isEmpty <;> cases o <;> cases e <;> simp [h, hs, htt]

theorem sqlite_row_after_started_running (now : String) (r : StepRow) (a : UpdateArgs)
    (h0 : r.started_at = none) (hs : a.status = some "running") :
    (sqlite_row_after now r a).started_at = some now := by
  rcases a with ⟨s, o, e⟩
  simp only at hs
  subst hs
  unfold sqlite_row_after
  have hr : ("running" : String).isEmpty = false := by decide
  cases o <;> cases e <;> simp [h0, hr, strTruthy]

theorem sqlite_row_after_finished_terminal (now : String) (r : StepRow) (a : UpdateArgs)
    (hs : a.status = some "success" ∨ a.status = some "failed") :
    (sqlite_row_after now r a).finished_at = some now := by
  rcases a with ⟨s, o, e⟩
  simp only at hs
  have h1 : ("success" : String).isEmpty = false := by decide
  have h2 : ("failed" : String).isEmpty = false := by decide
  rcases hs with hs | hs <;> subst hs <;> unfold sqlite_row_after <;>
    cases o <;> cases e <;> simp [h1, h2, strTruthy] <;> split_ifs <;> rfl

/-! Sequences of updateStep calls. -/

/-- A sequence of update_step calls under the JSON backend, each given as
    (time, step key, arguments), applied to an in-memory state. -/
def applyUpdatesJ (st : ProjectState) (us : List (String × String × UpdateArgs)) : ProjectState :=
  us.foldl (fun acc u => update_step_core u.1 u.2.1 acc u.2.2) st

/-- A sequence of _sqlite_update_step calls, each given as
    (time, project, step key, arguments). -/
def applyUpdatesS (db : Db) (vs : List (String × String × String × UpdateArgs)) : Db :=
  vs.foldl (fun acc u => sqlite_update_step u.1 acc u.2.1 u.2.2.1 u.2.2.2) db

theorem rowOfDb_update_self (now : String) (db : Db) (p k : String) (a : UpdateArgs) :
    rowOfDb (sqlite_update_step now db p k a) p k =
      sqlite_row_after now (rowOfDb db p k) a := by
  unfold rowOfDb
  rw [sqlite_update_steps_self]
  rfl

theorem rowOfDb_update_other (now : String) (db : Db) (p' k' : String) (a : UpdateArgs)
    (p k : String) (h : ¬(p = p' ∧ k = k')) :
    rowOfDb (sqlite_update_step now db p' k' a) p k = rowOfDb db p k := by
  unfold rowOfDb
  rw [sqlite_update_step_eq]
  simp only []
  have hne : (p, k) ≠ (p', k') := by
    intro hc
    injection hc with h1 h2
    exact h ⟨h1, h2⟩
  rw [aget_aset_ne _ _ _ _ hne]
  have hseed : (aget (seedRows p' PIPELINE_STEPS db.steps) (p, k)).getD defaultStepRow =
      (aget db.steps (p, k)).getD defaultStepRow := by
    rw [aget_seedRows]
    cases h0 : aget db.steps (p, k) with
    | some r => simp
    | none => by_cases hm : p = p' ∧ k ∈ PIPELINE_STEPS <;> simp [hm]
  cases hh : aget (sqlite_init_project now db p').steps (p', k') with
  | some r =>
    simp only [hh]
    rw [init_steps] at *
    exact hseed
  | none =>
    simp only [hh]
    rw [aget_append]
    have hinner : aget [((p', k'), defaultStepRow)] (p, k) = none := by
      simp [aget, Ne.symm hne]
    rw [init_steps] at *
    cases h1 : aget (seedRows p' PIPELINE_STEPS db.steps) (p, k) with
    | some r => rw [h1] at hseed; simpa using hseed
    | none =>
      simp only [hinner]
      rw [h1] at hseed
      simpa using hseed

theorem json_started_preserved (st : ProjectState) (k t : String)
    (h : (stepOfState st k).started_at = some t)
    (us : List (String × String × UpdateArgs)) :
    (stepOfState (applyUpdatesJ st us) k).started_at = some t := by
  induction us generalizing st with
  | nil => exact h
  | cons u us ih =>
    unfold applyUpdatesJ at ih ⊢
    rw [List.foldl_cons]
    apply ih
    by_cases hk : k = u.2.1
    · subst hk
      rw [stepOfState_update_self]
      exact json_step_after_started_of_some _ _ _ _ h
    · rw [stepOfState_update_ne _ _ _ _ _ hk]
      exact h

theorem sqlite_started_preserved (db : Db) (p k t : String) (ht : t ≠ "")
    (h : (rowOfDb db p k).started_at = some t)
    (vs : List (String × String × String × UpdateArgs)) :
    (rowOfDb (applyUpdatesS db vs) p k).started_at = some t := by
  induction vs generalizing db with
  | nil => exact h
  | cons u vs ih =>
    unfold applyUpdatesS at ih ⊢
    rw [List.foldl_cons]
    apply ih
    by_cases hpk : p = u.2.1 ∧ k = u.2.2.1
    · obtain ⟨h1, h2⟩ := hpk
      rw [h1, h2] at h ⊢
      rw [rowOfDb_update_self]
      exact sqlite_row_after_started_of_some _ _ _ _ ht h
    · rw [rowOfDb_update_other u.1 db u.2.1 u.2.2.1 u.2.2.2 p k hpk]
      exact h

/-- C1: under both backends, a step's started_at is written only by a running
    transition that finds it unset; the first running transition stamps it, any
    later sequence of updateStep calls (any keys, any arguments, including a
    running-failed-running retry cycle) leaves it unchanged, and each transition
    to success or failed stamps finished_at. -/
theorem c1_started_at_once
    (now t k p : String) (stA stB : ProjectState) (dbA dbB : Db) (a1 a2 : UpdateArgs)
    (us : List (String × String × UpdateArgs))
    (vs : List (String × String × String × UpdateArgs)) :
    ((stepOfState stA k).started_at = none → a1.status = some "running" →
      (stepOfState (update_step_core now k stA a1) k).started_at = some now) ∧
    ((stepOfState stB k).started_at = some t →
      (stepOfState (applyUpdatesJ stB us) k).started_at = some t) ∧
    ((a2.status = some "success" ∨ a2.status = some "failed") →
      (stepOfState (update_step_core now k stA a2) k).finished_at = some now) ∧
    ((rowOfDb dbA p k).started_at = none → a1.status = some "running" →
      (rowOfDb (sqlite_update_step now dbA p k a1) p k).started_at = some now) ∧
    (t ≠ "" → (rowOfDb dbB p k).started_at = some t →
      (rowOfDb (applyUpdatesS dbB vs) p k).started_at = some t) ∧
    ((a2.status = some "success" ∨ a2.status = some "failed") →
      (rowOfDb (sqlite_update_step now dbA p k a2) p k).finished_at = some now) := by
  refine ⟨?_, ?_, ?_, ?_, ?_, ?_⟩
  · intro h0 hs
    rw [stepOfState_update_self]
    exact json_step_after_started_running _ _ _ h0 hs
  · intro h
    exact json_started_preserved _ _ _ h us
  · intro hs
    rw [stepOfState_update_self]
    exact json_step_after_finished_terminal _ _ _ hs
  · intro h0 hs
    rw [rowOfDb_update_self]
    exact sqlite_row_after_started_running _ _ _ h0 hs
  · intro ht h
    exact sqlite_started_preserved _ _ _ _ ht h vs
  · intro hs
    rw [rowOfDb_update_self]
    exact sqlite_row_after_finished_terminal _ _ _ hs

def emptyDb : Db := { projects := [], steps := [], artifacts := [], history := [] }

/-- Witness for c1_started_at_once at concrete inputs (a retry cycle). -/
theorem c1_started_at_once_witness :
    (stepOfState (update_step_core "t1" "narrative_deconstructed" sampleState
        { status := some "running", outputs := none, error := none })
      "narrative_deconstructed").started_at = some "t1" ∧
    (stepOfState (applyUpdatesJ
        (update_step_core "t0" "narrative_deconstructed" sampleState
          { status := some "running", outputs := none, error := none })
        [("t2", "narrative_deconstructed",
            { status := some "failed", outputs := none, error := some "boom" }),
         ("t3", "narrative_deconstructed",
            { status := some "running", outputs := none, error := none })])
      "narrative_deconstructed").started_at = some "t0" ∧
    (stepOfState (update_step_core "t1" "narrative_deconstructed" sampleState
        { status := some "success", outputs := none, error := none })
      "narrative_deconstructed").finished_at = some "t1" ∧
    (rowOfDb (sqlite_update_step "t1" emptyDb "proj" "narrative_deconstructed"
        { status := some "running", outputs := none, error := none })
      "proj" "narrative_deconstructed").started_at = some "t1" ∧
    (rowOfDb (applyUpdatesS
        (sqlite_update_step "t0" emptyDb "proj" "narrative_deconstructed"
          { status := some "running", outputs := none, error := none })
        [("t2", "proj", "narrative_deconstructed",
            { status := some "failed", outputs := none, error := some "boom" }),
         ("t3", "proj", "narrative_deconstructed",
            { status := some "running", outputs := none, error := none })])
      "proj" "narrative_deconstructed").started_at = some "t0" ∧
    (rowOfDb (sqlite_update_step "t1" emptyDb "proj" "narrative_deconstructed"
        { status := some "success", outputs := none, error := none })
      "proj" "narrative_deconstructed").finished_at = some "t1" := by
  have h := c1_started_at_once "t1" "t0" "narrative_deconstructed" "proj"
    sampleState
    (update_step_core "t0" "narrative_deconstructed" sampleState
      { status := some "running", outputs := none, error := none })
    emptyDb
    (sqlite_update_step "t0" emptyDb "proj" "narrative_deconstructed"
      { status := some "running", outputs := none, error := none })
    { status := some "running", outputs := none, error := none }
    { status := some "success", outputs := none, error := none }
    [("t2", "narrative_deconstructed",
        { status := some "failed", outputs := none, error := some "boom" }),
     ("t3", "narrative_deconstructed",
        { status := some "running", outputs := none, error := none })]
    [("t2", "proj", "narrative_deconstructed",
        { status := some "failed", outputs := none, error := some "boom" }),
     ("t3", "proj", "narrative_deconstructed",
        { status := some "running", outputs := none, error := none })]
  exact ⟨h.1 (by decide) rfl, h.2.1 (by decide), h.2.2.1 (Or.inl rfl),
    h.2.2.2.1 (by decide) rfl, h.2.2.2.2.1 (by decide) (by decide),
    h.2.2.2.2.2 (Or.inl rfl)⟩

/-- C10: updateStep treats status and outputs by Python truthiness but error by
    presence: an empty-string status performs no transition and logs nothing, an
    empty outputs dict merges nothing and touches no artifacts, while an
    empty-string error with no status is a real error report (step marked
    failed, finished_at stamped, empty message stored and logged), under both
    backends. -/
theorem c10_truthiness_asymmetry (now k p : String) (st : ProjectState) (db : Db) :
    (stepOfState (update_step_core now k st
        { status := some "", outputs := none, error := none }) k = stepOfState st k ∧
      (update_step_core now k st
        { status := some "", outputs := none, error := none }).history = st.history) ∧
    (stepOfState (update_step_core now k st
        { status := none, outputs := some [], error := none }) k = stepOfState st k ∧
      (update_step_core now k st
        { status := none, outputs := some [], error := none }).history = st.history ∧
      (update_step_core now k st
        { status := none, outputs := some [], error := none }).artifacts = st.artifacts) ∧
    (stepOfState (update_step_core now k st
        { status := none, outputs := none, error := some "" }) k =
      { stepOfState st k with status := "failed", finished_at := some now, error := some "" } ∧
      (update_step_core now k st
        { status := none, outputs := none, error := some "" }).history =
        st.history ++
          [{ time := now, event := "step:" ++ k ++ ":error", meta := HistMeta.err "" }]) ∧
    (rowOfDb (sqlite_update_step now db p k
        { status := some "", outputs := none, error := none }) p k =
      { rowOfDb db p k with
          outputs_json := some (.jsonOf (parseOutputs (rowOfDb db p k).outputs_json)) } ∧
      (sqlite_update_step now db p k
        { status := some "", outputs := none, error := none }).history = db.history) ∧
    (rowOfDb (sqlite_update_step now db p k
        { status := none, outputs := some [], error := none }) p k =
      { rowOfDb db p k with
          outputs_json := some (.jsonOf (parseOutputs (rowOfDb db p k).outputs_json)) } ∧
      (sqlite_update_step now db p k
        { status := none, outputs := some [], error := none }).history = db.history ∧
      (aget (sqlite_update_step now db p k
        { status := none, outputs := some [], error := none }).artifacts p).getD emptyArtifacts =
        (aget db.artifacts p).getD emptyArtifacts) ∧
    (rowOfDb (sqlite_update_step now db p k
        { status := none, outputs := none, error := some "" }) p k =
      { rowOfDb db p k with
          status := "failed", finished_at := some now, error := some "",
          outputs_json := some (.jsonOf (parseOutputs (rowOfDb db p k).outputs_json)) } ∧
      (sqlite_update_step now db p k
        { status := none, outputs := none, error := some "" }).history =
        db.history ++
          [{ project := p, time := now, event := "step:" ++ k ++ ":error",
             meta := HistMeta.err "" }]) := by
  have hemp : ("" : String).isEmpty = true := rfl
  have htk : ("" : String).take 500 = "" := by rw [String.take_eq]; rfl
  refine ⟨⟨?_, ?_⟩, ⟨?_, ?_, ?_⟩, ⟨?_, ?_⟩, ⟨?_, ?_⟩, ⟨?_, ?_, ?_⟩, ⟨?_, ?_⟩⟩
  · rw [stepOfState_update_self]
    simp [json_step_after, hemp]
  · rw [update_core_history]
    simp [json_hist_after, hemp]
  · rw [stepOfState_update_self]
    simp [json_step_after]
  · rw [update_core_history]
    simp [json_hist_after]
  · rw [update_core_artifacts]
    simp [json_arts_after]
  · rw [stepOfState_update_self]
    simp [json_step_after]
  · rw [update_core_history]
    simp [json_hist_after, htk]
  · rw [rowOfDb_update_self]
    simp [sqlite_row_after, hemp]
  · rw [sqlite_update_history]
    simp [sqlite_hist_after, hemp]
  · rw [rowOfDb_update_self]
    simp [sqlite_row_after]
  · rw [sqlite_update_history]
    simp [sqlite_hist_after]
  · rw [sqlite_update_artifacts_self]
    simp [sqlite_arts_after]
  · rw [rowOfDb_update_self]
    simp [sqlite_row_after, strTruthy]
  · rw [sqlite_update_history]
    simp [sqlite_hist_after, htk]

/-- C3 counterexample: the default state created and persisted by init for a
    fresh project has exactly five canonical step keys, not eight:
    soundtrack_generated, voiceover_generated and final_film_assembled are
    absent. -/
theorem c3_counterexample :
    init_project_json "t0" [] "demo" =
      .ok ([("output/projects/demo.json", FileDoc.ok (_default_state "t0" "demo"))],
           _default_state "t0" "demo") ∧
    (_default_state "t0" "demo").steps.map Prod.fst =
      ["narrative_deconstructed", "screenplay_generated", "storyboard_generated",
       "visual_assets_generated", "video_synthesized"] ∧
    aget (_default_state "t0" "demo").steps "soundtrack_generated" = none ∧
    aget (_default_state "t0" "demo").steps "voiceover_generated" = none ∧
    aget (_default_state "t0" "demo").steps "final_film_assembled" = none := by
  refine ⟨?_, ?_, ?_, ?_, ?_⟩ <;> rfl

/-- C3 (amended): for a fresh project name, init creates and persists a default
    state whose steps mapping holds exactly the five canonical keys
    narrative_deconstructed, screenplay_generated, storyboard_generated,
    visual_assets_generated and video_synthesized, each not_started with null
    timestamps, null error and empty outputs, with all four artifact pointers
    null and empty history. -/
theorem c3_init_default (fs : Fs) (name now : String)
    (hfresh : load_project_json fs name = .ok none) :
    init_project_json now fs name =
      .ok (save_project_json fs name (_default_state now name), _default_state now name) ∧
    load_project_json (save_project_json fs name (_default_state now name)) name =
      .ok (some (_default_state now name)) ∧
    (_default_state now name).steps.map Prod.fst = PIPELINE_STEPS ∧
    (∀ k st, aget (_default_state now name).steps k = some st → st = defaultStep) ∧
    (_default_state now name).artifacts = emptyArtifacts ∧
    (_default_state now name).history = [] := by
  refine ⟨?_, ?_, ?_, ?_, rfl, rfl⟩
  · unfold init_project_json
    rw [hfresh]
  · unfold load_project_json save_project_json
    rw [aget_aset_self]
  · simp [_default_state, PIPELINE_STEPS]
  · intro k st h
    simp [_default_state, PIPELINE_STEPS, aget] at h
    split_ifs at h <;> simp_all

/-- Witness for c3_init_default on an empty directory. -/
theorem c3_init_default_witness :
    load_project_json [] "demo" = .ok none ∧
    (init_project_json "t0" [] "demo" =
      .ok (save_project_json [] "demo" (_default_state "t0" "demo"),
           _default_state "t0" "demo") ∧
    load_project_json (save_project_json [] "demo" (_default_state "t0" "demo")) "demo" =
      .ok (some (_default_state "t0" "demo")) ∧
    (_default_state "t0" "demo").steps.map Prod.fst = PIPELINE_STEPS ∧
    (∀ k st, aget (_default_state "t0" "demo").steps k = some st → st = defaultStep) ∧
    (_default_state "t0" "demo").artifacts = emptyArtifacts ∧
    (_default_state "t0" "demo").history = []) :=
  ⟨rfl, c3_init_default [] "demo" "t0" rfl⟩

def longMsg : String := String.mk (List.replicate 501 'a')

/-- C4 counterexample: updateStep with status="failed" and a 501-character error
    still appends a step:<k>:error history entry (the claim's "exactly when an
    error is reported without an accompanying status" is false), and the step's
    persisted error field keeps all 501 characters (only the history copy is
    truncated to 500). -/
theorem c4_counterexample :
    (update_step_core "t1" "k" sampleState
      { status := some "failed", outputs := none, error := some longMsg }).history =
      [{ time := "t1", event := "step:k:failed", meta := HistMeta.prev "not_started" },
       { time := "t1", event := "step:k:error",
         meta := HistMeta.err (String.mk (List.replicate 500 'a')) }] ∧
    (stepOfState (update_step_core "t1" "k" sampleState
      { status := some "failed", outputs := none, error := some longMsg }) "k").error =
      some longMsg ∧
    longMsg.length = 501 := by
  have hstep : stepOfState sampleState "k" = defaultStep := rfl
  have htake : longMsg.take 500 = String.mk (List.replicate 500 'a') := by
    rw [String.take_eq]
    simp [longMsg]
  refine ⟨?_, ?_, ?_⟩
  · rw [update_core_history, hstep]
    have hne : ("failed" : String).isEmpty = false := rfl
    simp [json_hist_after, htake, sampleState, defaultStep, hne]
  · rw [stepOfState_update_self, hstep]
    simp [json_step_after]
  · have h1 : longMsg.length = (List.replicate 501 'a').length := rfl
    rw [h1, List.length_replicate]

/-- C4 (amended): under both backends, updateStep with an error and no status
    marks the step failed, stamps finished_at and stores the full (untruncated)
    error message; and every update carrying an error, with or without an
    accompanying status, appends a step:<k>:error history entry whose copy of
    the message is truncated to 500 characters. -/
theorem c4_error_semantics (now k p e : String) (st : ProjectState) (db : Db)
    (a : UpdateArgs) (he : a.error = some e) :
    ((stepOfState (update_step_core now k st
        { status := none, outputs := none, error := some e }) k).status = "failed" ∧
     (stepOfState (update_step_core now k st
        { status := none, outputs := none, error := some e }) k).finished_at = some now ∧
     (stepOfState (update_step_core now k st
        { status := none, outputs := none, error := some e }) k).error = some e) ∧
    (update_step_core now k st a).history.getLast? =
      some { time := now, event := "step:" ++ k ++ ":error",
             meta := HistMeta.err (e.take 500) } ∧
    ((rowOfDb (sqlite_update_step now db p k
        { status := none, outputs := none, error := some e }) p k).status = "failed" ∧
     (rowOfDb (sqlite_update_step now db p k
        { status := none, outputs := none, error := some e }) p k).finished_at = some now ∧
     (rowOfDb (sqlite_update_step now db p k
        { status := none, outputs := none, error := some e }) p k).error = some e) ∧
    (sqlite_update_step now db p k a).history.getLast? =
      some { project := p, time := now, event := "step:" ++ k ++ ":error",
             meta := HistMeta.err (e.take 500) } := by
  obtain ⟨s, o, e2⟩ := a
  obtain rfl : e2 = some e := he
  refine ⟨⟨?_, ?_, ?_⟩, ?_, ⟨?_, ?_, ?_⟩, ?_⟩
  · rw [stepOfState_update_self]
    simp [json_step_after]
  · rw [stepOfState_update_self]
    simp [json_step_after]
  · rw [stepOfState_update_self]
    simp [json_step_after]
  · rw [update_core_history]
    have hsplit : json_hist_after now k (stepOfState st k)
        { status := s, outputs := o, error := some e } =
        (match s with
         | some sv =>
           if sv.isEmpty then []
           else [{ time := now, event := "step:" ++ k ++ ":" ++ sv,
                   meta := HistMeta.prev (stepOfState st k).status }]
         | none => ([] : List HistoryEntry)) ++
        [{ time := now, event := "step:" ++ k ++ ":error",
           meta := HistMeta.err (e.take 500) }] := rfl
    rw [hsplit, ← List.append_assoc, List.getLast?_concat]
  · rw [rowOfDb_update_self]
    simp [sqlite_row_after, strTruthy]
  · rw [rowOfDb_update_self]
    simp [sqlite_row_after, strTruthy]
  · rw [rowOfDb_update_self]
    simp [sqlite_row_after, strTruthy]
  · rw [sqlite_update_history]
    have hsplit : sqlite_hist_after now p k (rowOfDb db p k)
        { status := s, outputs := o, error := some e } =
        (match s with
         | some sv =>
           if sv.isEmpty then []
           else [{ project := p, time := now, event := "step:" ++ k ++ ":" ++ sv,
                   meta := HistMeta.prev (rowOfDb db p k).status }]
         | none => ([] : List HistRow)) ++
        [{ project := p, time := now, event := "step:" ++ k ++ ":error",
           meta := HistMeta.err (e.take 500) }] := rfl
    rw [hsplit, ← List.append_assoc, List.getLast?_concat]

/-- Witness for c4_error_semantics: error "boom" reported together with status
    "failed". -/
theorem c4_error_semantics_witness :
    ((stepOfState (update_step_core "t1" "k" sampleState
        { status := none, outputs := none, error := some "boom" }) "k").status = "failed" ∧
     (stepOfState (update_step_core "t1" "k" sampleState
        { status := none, outputs := none, error := some "boom" }) "k").finished_at = some "t1" ∧
     (stepOfState (update_step_core "t1" "k" sampleState
        { status := none, outputs := none, error := some "boom" }) "k").error = some "boom") ∧
    (update_step_core "t1" "k" sampleState
        { status := some "failed", outputs := none, error := some "boom" }).history.getLast? =
      some { time := "t1", event := "step:" ++ "k" ++ ":error",
             meta := HistMeta.err (("boom" : String).take 500) } ∧
    ((rowOfDb (sqlite_update_step "t1" emptyDb "p" "k"
        { status := none, outputs := none, error := some "boom" }) "p" "k").status = "failed" ∧
     (rowOfDb (sqlite_update_step "t1" emptyDb "p" "k"
        { status := none, outputs := none, error := some "boom" }) "p" "k").finished_at = some "t1" ∧
     (rowOfDb (sqlite_update_step "t1" emptyDb "p" "k"
        { status := none, outputs := none, error := some "boom" }) "p" "k").error = some "boom") ∧
    (sqlite_update_step "t1" emptyDb "p" "k"
        { status := some "failed", outputs := none, error := some "boom" }).history.getLast? =
      some { project := "p", time := "t1", event := "step:" ++ "k" ++ ":error",
             meta := HistMeta.err (("boom" : String).take 500) } :=
  c4_error_semantics "t1" "k" "p" "boom" sampleState emptyDb
    { status := some "failed", outputs := none, error := some "boom" } rfl

/-! Generic association-list fold lemmas. -/

theorem aget_none_of_not_mem {κ α : Type} [DecidableEq κ] (l : List (κ × α)) (k : κ)
    (h : k ∉ l.map Prod.fst) : aget l k = none := by
  induction l with
  | nil => rfl
  | cons hd tl ih =>
    have h1 : hd.1 ≠ k := by
      intro hc
      exact h (by rw [List.map_cons]; exact List.mem_cons.mpr (Or.inl hc.symm))
    have h2 : k ∉ tl.map Prod.fst := by
      intro hc
      exact h (by rw [List.map_cons]; exact List.mem_cons.mpr (Or.inr hc))
    simp [aget, h1, ih h2]

theorem aset_aset {κ α : Type} [DecidableEq κ] (l : List (κ × α)) (k : κ) (v v' : α) :
    aset (aset l k v) k v' = aset l k v' := by
  induction l with
  | nil => simp [aset]
  | cons hd tl ih =>
    by_cases h : hd.1 = k <;> simp [aset, h, ih]

theorem aget_foldl_aset {κ α β : Type} [DecidableEq κ] (f : β → κ) (g : β → α)
    (items : List β) (l : List (κ × α)) (k : κ)
    (hnd : (items.map f).Nodup) :
    aget (items.foldl (fun acc b => aset acc (f b) (g b)) l) k =
      match aget (items.map (fun b => (f b, g b))) k with
      | some v => some v
      | none => aget l k := by
  induction items generalizing l with
  | nil => simp [aget]
  | cons b items ih =>
    rw [List.map_cons, List.nodup_cons] at hnd
    rw [List.foldl_cons, ih _ hnd.2, List.map_cons]
    by_cases hk : f b = k
    · subst hk
      have hnone : aget (items.map (fun b => (f b, g b))) (f b) = none := by
        apply aget_none_of_not_mem
        intro hc
        apply hnd.1
        simp only [List.map_map] at hc
        simpa using hc
      rw [hnone]
      simp [aget, aget_aset_self]
    · simp only [aget, hk, if_neg hk]
      cases hx : aget (items.map (fun b => (f b, g b))) k with
      | some v => simp
      | none => simp [aget_aset_ne _ _ _ _ (Ne.symm hk)]

theorem aget_setdefault_fold {κ α : Type} [DecidableEq κ] (keys : List κ)
    (l : List (κ × α)) (d : α) (k : κ) :
    aget (keys.foldl
        (fun acc s => match aget acc s with | some _ => acc | none => aset acc s d) l) k =
      match aget l k with
      | some v => some v
      | none => if k ∈ keys then some d else none := by
  induction keys generalizing l with
  | nil => cases h : aget l k <;> simp [h]
  | cons s keys ih =>
    rw [List.foldl_cons, ih]
    by_cases hkey : k = s
    · subst hkey
      cases h : aget l k with
      | some r => simp [h]
      | none => simp [h, aget_aset_self, List.mem_cons]
    · have hif : (k ∈ s :: keys) ↔ (k ∈ keys) := by
        constructor
        · intro hm
          rcases List.mem_cons.mp hm with hm | hm
          · exact absurd hm hkey
          · exact hm
        · exact fun hm => List.mem_cons.mpr (Or.inr hm)
      cases h : aget l (s : κ) with
      | some r => cases hk2 : aget l k <;> simp only [hk2, hif]
      | none =>
        have hx : aget (aset l s d) k = aget l k := aget_aset_ne _ _ _ _ hkey
        rw [hx]
        cases hk2 : aget l k <;> simp only [hk2, hif]

theorem aget_filter_proj (l : List ((String × String) × StepRow)) (p k : String) :
    aget ((l.filter (fun r => decide (r.1.1 = p))).map (fun r => (r.1.2, r.2))) k =
      aget l (p, k) := by
  induction l with
  | nil => rfl
  | cons hd tl ih =>
    by_cases hp : hd.1.1 = p
    · rw [List.filter_cons]
      simp only [hp]
      rw [if_pos (by simp), List.map_cons]
      by_cases hk : hd.1.2 = k
      · have : hd.1 = (p, k) := Prod.ext hp hk
        simp [aget, hk, this]
      · have : hd.1 ≠ (p, k) := by
          intro hc
          exact hk (by rw [hc])
        simp [aget, hk, this, ih]
    · rw [List.filter_cons]
      have hne : hd.1 ≠ (p, k) := by
        intro hc
        exact hp (by rw [hc])
      rw [if_neg (by simpa using hp)]
      rw [ih]
      simp [aget, hne]

theorem aget_map_snd {κ α β : Type} [DecidableEq κ] (l : List (κ × α)) (h : α → β) (k : κ) :
    aget (l.map (fun kv => (kv.1, h kv.2))) k = (aget l k).map h := by
  induction l with
  | nil => rfl
  | cons hd tl ih =>
    by_cases hk : hd.1 = k <;> simp [aget, hk, ih]

theorem aget_seedDefaults (keys : List String) (l : List (String × Step)) (k : String) :
    aget (seedDefaults keys l) k =
      match aget l k with
      | some v => some v
      | none => if k ∈ keys then some defaultStep else none := by
  induction keys generalizing l with
  | nil => cases h : aget l k <;> simp [seedDefaults, h]
  | cons s keys ih =>
    have hstep : seedDefaults (s :: keys) l =
        seedDefaults keys
          (match aget l s with
           | some _ => l
           | none => aset l s defaultStep) := by
      cases h : aget l s <;> simp [seedDefaults, h]
    rw [hstep, ih]
    by_cases hkey : k = s
    · subst hkey
      cases h : aget l k with
      | some r => simp [h]
      | none => simp [h, aget_aset_self, List.mem_cons]
    · have hif : (k ∈ s :: keys) ↔ (k ∈ keys) := by
        constructor
        · intro hm
          rcases List.mem_cons.mp hm with hm | hm
          · exact absurd hm hkey
          · exact hm
        · exact fun hm => List.mem_cons.mpr (Or.inr hm)
      cases h : aget l s with
      | some r => cases hk2 : aget l k <;> simp only [hk2, hif]
      | none =>
        have hx : aget (aset l s defaultStep) k = aget l k := aget_aset_ne _ _ _ _ hkey
        rw [hx]
        cases hk2 : aget l k <;> simp only [hk2, hif]

theorem aget_buildSteps_gen (rows : List ((String × String) × StepRow))
    (acc : List (String × Step)) (k : String)
    (hnd : (rows.map (fun r => r.1.2)).Nodup) :
    aget (rows.foldl (fun a r => aset a r.1.2 (stepOfRow r.2)) acc) k =
      match aget (rows.map (fun r => (r.1.2, r.2))) k with
      | some v => some (stepOfRow v)
      | none => aget acc k := by
  induction rows generalizing acc with
  | nil => simp [aget]
  | cons r rows ih =>
    rw [List.map_cons, List.nodup_cons] at hnd
    rw [List.foldl_cons, ih _ hnd.2, List.map_cons]
    by_cases hk : r.1.2 = k
    · subst hk
      have hnone : aget (rows.map (fun r => (r.1.2, r.2))) r.1.2 = none := by
        apply aget_none_of_not_mem
        intro hc
        apply hnd.1
        simp only [List.map_map] at hc
        simpa using hc
      rw [hnone]
      simp [aget, aget_aset_self]
    · simp only [aget, if_neg hk]
      cases hx : aget (rows.map (fun r => (r.1.2, r.2))) k with
      | some v => simp
      | none => simp [aget_aset_ne _ _ _ _ (Ne.symm hk)]

theorem aget_buildSteps (rows : List ((String × String) × StepRow)) (k : String)
    (hnd : (rows.map (fun r => r.1.2)).Nodup) :
    aget (buildSteps rows) k = (aget (rows.map (fun r => (r.1.2, r.2))) k).map stepOfRow := by
  unfold buildSteps
  rw [aget_buildSteps_gen _ _ _ hnd]
  cases hx : (aget (rows.map (fun r => (r.1.2, r.2))) k) <;> simp [aget]

/-- What _sqlite_load_project returns for a present project: created/updated
    from the projects row, artifacts from the artifacts row (defaulting), empty
    history, and a steps view that is the steps table at (p, k) when a row
    exists and a synthesized not_started default for canonical keys. -/
theorem sqlite_load_view (db : Db) (p c u : String)
    (hp : aget db.projects p = some (c, u))
    (hnd : ((db.steps.filter (fun r => decide (r.1.1 = p))).map (fun r => r.1.2)).Nodup) :
    ∃ st, sqlite_load_project db p = some st ∧
      st.project = p ∧ st.created_at = c ∧ st.updated_at = u ∧
      st.artifacts = (aget db.artifacts p).getD emptyArtifacts ∧
      st.history = [] ∧
      ∀ k, aget st.steps k =
        (match (aget db.steps (p, k)).map stepOfRow with
         | some v => some v
         | none => if k ∈ PIPELINE_STEPS then some defaultStep else none) := by
  unfold sqlite_load_project
  rw [hp]
  refine ⟨_, rfl, rfl, rfl, rfl, rfl, rfl, ?_⟩
  intro k
  show aget (seedDefaults PIPELINE_STEPS
      (buildSteps (db.steps.filter (fun r => decide (r.1.1 = p))))) k = _
  rw [aget_seedDefaults, aget_buildSteps _ _ hnd]
  rw [aget_filter_proj]

def corruptDb : Db :=
  { projects := [("p", ("t0", "t0"))],
    steps := [(("p", "narrative_deconstructed"),
      { status := "success", started_at := some "t0", finished_at := some "t1",
        error := none, outputs_json := some (.garbage "xyz") })],
    artifacts := [("p", emptyArtifacts)],
    history := [] }

/-- C7 counterexample: a stored step row whose outputs blob is malformed loads
    without any error signal; the malformed field is silently coerced to empty
    outputs rather than surfaced. -/
theorem c7_counterexample :
    (sqlite_load_project corruptDb "p").isSome = true ∧
    (sqlite_load_project corruptDb "p").map
      (fun st => (stepOfState st "narrative_deconstructed").outputs) = some [] ∧
    (sqlite_load_project corruptDb "p").map
      (fun st => (stepOfState st "narrative_deconstructed").status) = some "success" := by
  refine ⟨rfl, rfl, rfl⟩

/-- C7 (amended): a well-formed missing project loads as an explicit absent
    signal under both backends; a malformed stored document under the document
    adapter raises the parse error; but the relational adapter silently coerces
    a malformed stored outputs field to empty outputs on load instead of
    surfacing an error. -/
theorem c7_load_error_semantics (fs1 fs2 : Fs) (db1 db2 : Db)
    (name1 name2 p1 p2 e c u k : String) (r : StepRow) (raw : String) :
    (aget fs1 (get_project_path name1) = none → load_project_json fs1 name1 = .ok none) ∧
    (aget db1.projects p1 = none → sqlite_load_project db1 p1 = none) ∧
    (aget fs2 (get_project_path name2) = some (.malformed e) →
      load_project_json fs2 name2 = .error e) ∧
    (aget db2.projects p2 = some (c, u) →
     ((db2.steps.filter (fun r => decide (r.1.1 = p2))).map (fun r => r.1.2)).Nodup →
     aget db2.steps (p2, k) = some r →
     r.outputs_json = some (.garbage raw) →
     ∃ st, sqlite_load_project db2 p2 = some st ∧ (stepOfState st k).outputs = []) := by
  refine ⟨?_, ?_, ?_, ?_⟩
  · intro h
    unfold load_project_json
    rw [h]
  · intro h
    unfold sqlite_load_project
    rw [h]
  · intro h
    unfold load_project_json
    rw [h]
  · intro hp hnd hr hraw
    obtain ⟨st, hload, _, _, _, _, _, hsteps⟩ := sqlite_load_view db2 p2 c u hp hnd
    refine ⟨st, hload, ?_⟩
    have hk := hsteps k
    rw [hr] at hk
    simp only [Option.map_some'] at hk
    unfold stepOfState
    rw [hk]
    simp [stepOfRow, hraw, parseOutputs]

/-- Witness for c7_load_error_semantics: empty directory / empty database for
    the absent cases, a malformed file for the parse-error case, and corruptDb
    for the coerced-outputs case. -/
theorem c7_load_error_semantics_witness :
    load_project_json [] "demo" = .ok none ∧
    sqlite_load_project emptyDb "demo" = none ∧
    load_project_json [("output/projects/demo.json", FileDoc.malformed "bad json")] "demo" =
      .error "bad json" ∧
    ∃ st, sqlite_load_project corruptDb "p" = some st ∧
      (stepOfState st "narrative_deconstructed").outputs = [] := by
  have h := c7_load_error_semantics []
    [("output/projects/demo.json", FileDoc.malformed "bad json")]
    emptyDb corruptDb "demo" "demo" "demo" "p" "bad json" "t0" "t0"
    "narrative_deconstructed"
    { status := "success", started_at := some "t0", finished_at := some "t1",
      error := none, outputs_json := some (.garbage "xyz") } "xyz"
  exact ⟨h.1 rfl, h.2.1 rfl, h.2.2.1 rfl, h.2.2.2 rfl (by decide) rfl rfl⟩

def partialDoc : ProjectState :=
  { project := "p", created_at := "t0", updated_at := "t0",
    steps := [("narrative_deconstructed", defaultStep)],
    artifacts := emptyArtifacts, history := [] }

def noStepsDb : Db :=
  { projects := [("p", ("t0", "t0"))], steps := [], artifacts := [], history := [] }

/-- C5 counterexample: the document adapter returns a stored document missing
    the canonical step video_synthesized exactly as stored, without
    synthesizing it, while the relational adapter synthesizes the same missing
    canonical step as not_started — so the two adapters do not both
    synthesize, and their loaded views differ. -/
theorem c5_counterexample :
    load_project_json [("output/projects/p.json", FileDoc.ok partialDoc)] "p" =
      .ok (some partialDoc) ∧
    aget partialDoc.steps "video_synthesized" = none ∧
    "video_synthesized" ∈ PIPELINE_STEPS ∧
    (sqlite_load_project noStepsDb "p").map
        (fun st => aget st.steps "video_synthesized") =
      some (some defaultStep) := by
  refine ⟨rfl, rfl, by decide, rfl⟩

/-- C5 (amended): the document adapter's load returns the stored document
    unchanged (no synthesis of missing canonical steps), while the relational
    adapter's load synthesizes every canonical step key missing from storage as
    a not_started step with null timestamps, null error and empty outputs. -/
theorem c5_adapter_load_views (fs : Fs) (db : Db) (name p c u k : String) (s : ProjectState) :
    (aget fs (get_project_path name) = some (.ok s) →
      load_project_json fs name = .ok (some s)) ∧
    (aget db.projects p = some (c, u) →
     ((db.steps.filter (fun r => decide (r.1.1 = p))).map (fun r => r.1.2)).Nodup →
     k ∈ PIPELINE_STEPS →
     ∃ st, sqlite_load_project db p = some st ∧
       aget st.steps k ≠ none ∧
       (aget db.steps (p, k) = none → aget st.steps k = some defaultStep)) := by
  refine ⟨?_, ?_⟩
  · intro h
    unfold load_project_json
    rw [h]
  · intro hp hnd hk
    obtain ⟨st, hload, _, _, _, _, _, hsteps⟩ := sqlite_load_view db p c u hp hnd
    refine ⟨st, hload, ?_, ?_⟩
    · have hv := hsteps k
      cases hr : aget db.steps (p, k) with
      | some r =>
        rw [hr] at hv
        simp only [Option.map_some'] at hv
        rw [hv]
        simp
      | none =>
        rw [hr] at hv
        simp only [Option.map_none'] at hv
        rw [hv]
        simp [hk]
    · intro hr
      have hv := hsteps k
      rw [hr] at hv
      simp only [Option.map_none'] at hv
      rw [hv]
      simp [hk]

/-- Witness for c5_adapter_load_views: a stored partial document and a database
    with no step rows. -/
theorem c5_adapter_load_views_witness :
    load_project_json [("output/projects/p.json", FileDoc.ok partialDoc)] "p" =
      .ok (some partialDoc) ∧
    ∃ st, sqlite_load_project noStepsDb "p" = some st ∧
      aget st.steps "video_synthesized" ≠ none ∧
      (aget noStepsDb.steps ("p", "video_synthesized") = none →
        aget st.steps "video_synthesized" = some defaultStep) := by
  have h := c5_adapter_load_views
    [("output/projects/p.json", FileDoc.ok partialDoc)]
    noStepsDb "p" "p" "t0" "t0" "video_synthesized" partialDoc
  exact ⟨h.1 rfl, h.2 rfl (by decide) (by decide)⟩

/-- C9: two distinct project names with equal sanitizations alias the same
    persisted document under the document adapter (saves and updateStep under
    one are observed by load of the other, delete of one makes the other
    absent), while the relational adapter keys rows by the raw name, so updates
    under one name leave the other name's loaded state untouched. -/
theorem c9_sanitize_aliasing (n1 n2 : String) (hne : n1 ≠ n2)
    (hsan : sanitizeName n1 = sanitizeName n2)
    (fs : Fs) (s : ProjectState) (now key : String) (a : UpdateArgs) (db : Db) :
    load_project_json (save_project_json fs n1 s) n2 = .ok (some s) ∧
    (load_project_json fs n1 = .ok none →
      update_step_json now fs n1 key a =
        .ok (save_project_json fs n1 (update_step_core now key (_default_state now n1) a),
             update_step_core now key (_default_state now n1) a) ∧
      load_project_json
        (save_project_json fs n1 (update_step_core now key (_default_state now n1) a)) n2 =
        .ok (some (update_step_core now key (_default_state now n1) a))) ∧
    load_project_json (delete_project_json fs n1) n2 = .ok none ∧
    sqlite_load_project (sqlite_update_step now db n1 key a) n2 =
      sqlite_load_project db n2 := by
  have hpath : get_project_path n1 = get_project_path n2 := by
    unfold get_project_path
    rw [hsan]
  refine ⟨?_, ?_, ?_, ?_⟩
  · unfold load_project_json save_project_json
    rw [← hpath, aget_aset_self]
  · intro hfresh
    constructor
    · unfold update_step_json init_project_json
      rw [hfresh]
      unfold save_project_json
      simp only []
      rw [aset_aset]
    · unfold load_project_json save_project_json
      rw [← hpath, aget_aset_self]
  · unfold load_project_json delete_project_json
    rw [← hpath, aget_aremove_self]
  · exact sqlite_load_after_update_ne now db n1 key a n2 (Ne.symm hne)

/-- Witness for c9_sanitize_aliasing: "a.b" and "a,b" both sanitize to "a_b". -/
theorem c9_sanitize_aliasing_witness :
    load_project_json (save_project_json [] "a.b" sampleState) "a,b" =
      .ok (some sampleState) ∧
    (update_step_json "t" [] "a.b" "k"
        { status := some "running", outputs := none, error := none } =
      .ok (save_project_json [] "a.b"
             (update_step_core "t" "k" (_default_state "t" "a.b")
               { status := some "running", outputs := none, error := none }),
           update_step_core "t" "k" (_default_state "t" "a.b")
             { status := some "running", outputs := none, error := none }) ∧
      load_project_json
        (save_project_json [] "a.b"
          (update_step_core "t" "k" (_default_state "t" "a.b")
            { status := some "running", outputs := none, error := none })) "a,b" =
        .ok (some (update_step_core "t" "k" (_default_state "t" "a.b")
          { status := some "running", outputs := none, error := none }))) ∧
    load_project_json (delete_project_json [] "a.b") "a,b" = .ok none ∧
    sqlite_load_project (sqlite_update_step "t" emptyDb "a.b" "k"
        { status := some "running", outputs := none, error := none }) "a,b" =
      sqlite_load_project emptyDb "a,b" := by
  have h := c9_sanitize_aliasing "a.b" "a,b" (by decide) (by decide) [] sampleState "t" "k"
    { status := some "running", outputs := none, error := none } emptyDb
  exact ⟨h.1, h.2.1 rfl, h.2.2.1, h.2.2.2⟩

theorem json_arts_truthy_step (now key : String) (st : ProjectState) (a : UpdateArgs)
    (k : String) (h : strTruthy (artGet st.artifacts k) = true) :
    strTruthy (artGet (update_step_core now key st a).artifacts k) = true := by
  rw [update_core_artifacts]
  unfold json_arts_after
  cases ao : a.outputs with
  | none => exact h
  | some os =>
    cases he : os.isEmpty
    · simp only [he, Bool.false_eq_true, if_neg, if_false]
      exact strTruthy_mirror _ _ _ h
    · simp only [he, if_true]
      exact h

theorem sqlite_arts_truthy_step (now p' key : String) (db : Db) (a : UpdateArgs)
    (p k : String)
    (h : strTruthy (artGet ((aget db.artifacts p).getD emptyArtifacts) k) = true) :
    strTruthy (artGet ((aget (sqlite_update_step now db p' key a).artifacts p).getD
      emptyArtifacts) k) = true := by
  by_cases hp : p = p'
  · subst hp
    rw [sqlite_update_artifacts_self]
    simp only [Option.getD_some]
    unfold sqlite_arts_after
    cases ao : a.outputs with
    | none => exact h
    | some os =>
      cases he : os.isEmpty
      · simp only [he, Bool.false_eq_true, if_neg, if_false]
        exact strTruthy_sqliteMirror _ _ _ h
      · simp only [he, if_true]
        exact h
  · rw [sqlite_update_artifacts_get_ne now db p' key a p hp]
    exact h

/-- C8: a recognized artifact key present in the outputs argument with a
    non-empty value is mirrored into the top-level artifacts (both backends),
    and a non-empty artifact pointer stays non-empty across any sequence of
    updateStep calls: it can only be overwritten by a later non-empty value,
    never cleared. -/
theorem c8_artifact_mirroring (now key p k v : String) (st stB : ProjectState)
    (db dbB : Db) (a : UpdateArgs) (os : List (String × String))
    (us : List (String × String × UpdateArgs))
    (vs : List (String × String × String × UpdateArgs)) :
    (a.outputs = some os → aget os k = some v → v ≠ "" → k ∈ ARTIFACT_KEYS →
      artGet (update_step_core now key st a).artifacts k = some v) ∧
    (strTruthy (artGet stB.artifacts k) = true →
      strTruthy (artGet (applyUpdatesJ stB us).artifacts k) = true) ∧
    (a.outputs = some os → (os.map Prod.fst).Nodup → (k, v) ∈ os → v ≠ "" →
      k ∈ ARTIFACT_KEYS →
      artGet ((aget (sqlite_update_step now db p key a).artifacts p).getD
        emptyArtifacts) k = some v) ∧
    (strTruthy (artGet ((aget dbB.artifacts p).getD emptyArtifacts) k) = true →
      strTruthy (artGet ((aget (applyUpdatesS dbB vs).artifacts p).getD
        emptyArtifacts) k) = true) := by
  refine ⟨?_, ?_, ?_, ?_⟩
  · intro hao hv hne hk
    rw [update_core_artifacts]
    unfold json_arts_after
    rw [hao]
    have hos : os.isEmpty = false := by
      cases os with
      | nil => simp [aget] at hv
      | cons hd tl => rfl
    simp only [hos, Bool.false_eq_true, if_neg, if_false]
    exact artGet_mirror _ _ _ _ hk hv hne
  · intro h
    induction us generalizing stB with
    | nil => exact h
    | cons u us ih =>
      unfold applyUpdatesJ at ih ⊢
      rw [List.foldl_cons]
      exact ih _ (json_arts_truthy_step _ _ _ _ _ h)
  · intro hao hnd hmem hne hk
    rw [sqlite_update_artifacts_self]
    simp only [Option.getD_some]
    unfold sqlite_arts_after
    rw [hao]
    have hos : os.isEmpty = false := by
      cases os with
      | nil => cases hmem
      | cons hd tl => rfl
    simp only [hos, Bool.false_eq_true, if_neg, if_false]
    exact artGet_sqliteMirror _ _ _ _ hk hnd hmem hne
  · intro h
    induction vs generalizing dbB with
    | nil => exact h
    | cons u vs ih =>
      unfold applyUpdatesS at ih ⊢
      rw [List.foldl_cons]
      exact ih _ (sqlite_arts_truthy_step _ _ _ _ _ _ _ h)

def artsDb : Db :=
  { projects := [("p", ("t0", "t0"))], steps := [],
    artifacts := [("p", { schema_file := some "s.json", screenplay_file := none,
                          storyboard_file := none, video_file := none })],
    history := [] }

def artsState : ProjectState :=
  { sampleState with
      artifacts := { schema_file := some "s.json", screenplay_file := none,
                     storyboard_file := none, video_file := none } }

/-- Witness for c8_artifact_mirroring: mirror schema_file and survive an update
    whose outputs carry an empty value for the same key. -/
theorem c8_artifact_mirroring_witness :
    artGet (update_step_core "t1" "narrative_deconstructed" sampleState
      { status := none, outputs := some [("schema_file", "/x/y.json")], error := none
      }).artifacts "schema_file" = some "/x/y.json" ∧
    strTruthy (artGet (applyUpdatesJ artsState
      [("t2", "narrative_deconstructed",
        { status := none, outputs := some [("schema_file", "")], error := none })]
      ).artifacts "schema_file") = true ∧
    artGet ((aget (sqlite_update_step "t1" emptyDb "p" "narrative_deconstructed"
      { status := none, outputs := some [("schema_file", "/x/y.json")], error := none
      }).artifacts "p").getD emptyArtifacts) "schema_file" = some "/x/y.json" ∧
    strTruthy (artGet ((aget (applyUpdatesS artsDb
      [("t2", "p", "narrative_deconstructed",
        { status := none, outputs := some [("schema_file", "")], error := none })]
      ).artifacts "p").getD emptyArtifacts) "schema_file") = true := by
  have h := c8_artifact_mirroring "t1" "narrative_deconstructed" "p" "schema_file"
    "/x/y.json" sampleState artsState emptyDb artsDb
    { status := none, outputs := some [("schema_file", "/x/y.json")], error := none }
    [("schema_file", "/x/y.json")]
    [("t2", "narrative_deconstructed",
      { status := none, outputs := some [("schema_file", "")], error := none })]
    [("t2", "p", "narrative_deconstructed",
      { status := none, outputs := some [("schema_file", "")], error := none })]
  exact ⟨h.1 rfl rfl (by decide) (by decide),
    h.2.1 (by decide),
    h.2.2.1 rfl (by decide) (by decide) (by decide) (by decide),
    h.2.2.2 (by decide)⟩

/-- The migration loop's classification of a directory entry: parses as a dict
    with a truthy project field (and has the .json suffix). -/
def isMigratedFile (fe : String × JsonFile) : Bool :=
  fe.1.endsWith ".json" &&
    match fe.2 with
    | .dict s => decide (s.project ≠ "")
    | _ => false

/-- Parses (with the .json suffix) but has no usable project identifier. -/
def isSkippedFile (fe : String × JsonFile) : Bool :=
  fe.1.endsWith ".json" &&
    match fe.2 with
    | .nondict => true
    | .dict s => decide (s.project = "")
    | _ => false

/-- The {file, error} record contributed by a .json entry that fails to parse. -/
def errorRecordOf (src : String) (fe : String × JsonFile) : Option (String × String) :=
  if fe.1.endsWith ".json" then
    match fe.2 with
    | .invalid err => some (src ++ "/" ++ fe.1, err)
    | _ => none
  else none

/-- The database effect of one migrated entry. -/
def upsertOf (now : String) (d : Db) (fe : String × JsonFile) : Db :=
  match fe.2 with
  | .dict s => sqlite_upsert_full now d s
  | _ => d

theorem migrate_fold (now src : String) (files : List (String × JsonFile)) (db : Db)
    (m sk : Nat) (errs : List (String × String)) :
    files.foldl (migrate_step now src) (db, { migrated := m, skipped := sk, errors := errs }) =
      ((files.filter isMigratedFile).foldl (upsertOf now) db,
       { migrated := m + (files.filter isMigratedFile).length,
         skipped := sk + (files.filter isSkippedFile).length,
         errors := errs ++ files.filterMap (errorRecordOf src) }) := by
  induction files generalizing db m sk errs with
  | nil => simp
  | cons fe files ih =>
    rw [List.foldl_cons]
    by_cases hj : fe.1.endsWith ".json"
    · cases hfe : fe.2 with
      | invalid err =>
        have hm : isMigratedFile fe = false := by simp [isMigratedFile, hfe]
        have hs : isSkippedFile fe = false := by simp [isSkippedFile, hfe]
        have herr : errorRecordOf src fe = some (src ++ "/" ++ fe.1, err) := by
          simp [errorRecordOf, hj, hfe]
        have hstep : migrate_step now src (db, { migrated := m, skipped := sk, errors := errs }) fe =
            (db, { migrated := m, skipped := sk, errors := errs ++ [(src ++ "/" ++ fe.1, err)] }) := by
          simp [migrate_step, hj, hfe]
        rw [hstep, ih]
        simp [List.filter_cons, hm, hs, List.filterMap_cons, herr]
      | nondict =>
        have hm : isMigratedFile fe = false := by simp [isMigratedFile, hfe]
        have hs : isSkippedFile fe = true := by simp [isSkippedFile, hj, hfe]
        have herr : errorRecordOf src fe = none := by simp [errorRecordOf, hj, hfe]
        have hstep : migrate_step now src (db, { migrated := m, skipped := sk, errors := errs }) fe =
            (db, { migrated := m, skipped := sk + 1, errors := errs }) := by
          simp [migrate_step, hj, hfe]
        rw [hstep, ih]
        simp [List.filter_cons, hm, hs, List.filterMap_cons, herr]
        omega
      | dict s =>
        by_cases hp : s.project = ""
        · have hm : isMigratedFile fe = false := by simp [isMigratedFile, hfe, hp]
          have hs : isSkippedFile fe = true := by simp [isSkippedFile, hj, hfe, hp]
          have herr : errorRecordOf src fe = none := by simp [errorRecordOf, hj, hfe]
          have hstep : migrate_step now src (db, { migrated := m, skipped := sk, errors := errs }) fe =
              (db, { migrated := m, skipped := sk + 1, errors := errs }) := by
            simp [migrate_step, hj, hfe, hp]
          rw [hstep, ih]
          simp [List.filter_cons, hm, hs, List.filterMap_cons, herr]
          omega
        · have hm : isMigratedFile fe = true := by simp [isMigratedFile, hj, hfe, hp]
          have hs : isSkippedFile fe = false := by simp [isSkippedFile, hfe, hp]
          have herr : errorRecordOf src fe = none := by simp [errorRecordOf, hj, hfe]
          have hstep : migrate_step now src (db, { migrated := m, skipped := sk, errors := errs }) fe =
              (sqlite_upsert_full now db s,
               { migrated := m + 1, skipped := sk, errors := errs }) := by
            simp [migrate_step, hj, hfe, hp]
          rw [hstep, ih]
          have hup : upsertOf now db fe = sqlite_upsert_full now db s := by
            simp [upsertOf, hfe]
          simp [List.filter_cons, hm, hs, List.filterMap_cons, herr, hup]
          omega
    · have hm : isMigratedFile fe = false := by simp [isMigratedFile, hj]
      have hs : isSkippedFile fe = false := by simp [isSkippedFile, hj]
      have herr : errorRecordOf src fe = none := by simp [errorRecordOf, hj]
      have hstep : migrate_step now src (db, { migrated := m, skipped := sk, errors := errs }) fe =
          (db, { migrated := m, skipped := sk, errors := errs }) := by
        simp [migrate_step, hj]
      rw [hstep, ih]
      simp [List.filter_cons, hm, hs, List.filterMap_cons, herr]

theorem aget_upsert_steps_gen (p : String) (items : List (String × Step))
    (acc : List ((String × String) × StepRow)) (k : String)
    (hnd : (items.map Prod.fst).Nodup) :
    aget (items.foldl (fun acc kv => aset acc (p, kv.1) (rowOfStep kv.2)) acc) (p, k) =
      match aget items k with
      | some v => some (rowOfStep v)
      | none => aget acc (p, k) := by
  induction items generalizing acc with
  | nil => simp [aget]
  | cons kv items ih =>
    obtain ⟨k0, v0⟩ := kv
    rw [List.map_cons, List.nodup_cons] at hnd
    rw [List.foldl_cons, ih _ hnd.2]
    by_cases hk : k0 = k
    · subst hk
      have hnone : aget items k0 = none := by
        apply aget_none_of_not_mem
        simpa using hnd.1
      simp [aget, hnone, aget_aset_self]
    · have hpk : (p, k) ≠ (p, k0) := by
        intro hc
        injection hc with h1 h2
        exact hk h2.symm
      cases hx : aget items k with
      | some v => simp [aget, hk, hx]
      | none => simp [aget, hk, hx, aget_aset_ne _ _ _ _ hpk]

/-- C6: the migration scans the .json entries of the directory; every document
    that parses as a dict with a truthy project id is upserted into the
    relational backend (in order, via the full-state upsert) and counted in
    migrated, every document that parses without a usable id is counted in
    skipped, and every unparseable file contributes exactly one {file, error}
    record while the loop continues through all remaining entries; the upsert
    replaces a step row wholesale from the document (no merge). -/
theorem c6_migration_summary (now src : String) (db0 : Db)
    (files : List (String × JsonFile)) (d : Db) (s : ProjectState) (k : String)
    (stp : Step) :
    migrate_json_states_to_sqlite now src db0 files =
      ((files.filter isMigratedFile).foldl (upsertOf now) db0,
       { migrated := (files.filter isMigratedFile).length,
         skipped := (files.filter isSkippedFile).length,
         errors := files.filterMap (errorRecordOf src) }) ∧
    (s.project ≠ "" → (s.steps.map Prod.fst).Nodup → aget s.steps k = some stp →
      aget (sqlite_upsert_full now d s).steps (s.project, k) = some (rowOfStep stp)) := by
  constructor
  · unfold migrate_json_states_to_sqlite
    rw [migrate_fold]
    simp
  · intro hp hnd hv
    unfold sqlite_upsert_full
    rw [if_neg hp]
    show aget (s.steps.foldl (fun acc kv => aset acc (s.project, kv.1) (rowOfStep kv.2))
        (sqlite_init_project now d s.project).steps) (s.project, k) = _
    rw [aget_upsert_steps_gen _ _ _ _ hnd, hv]

def aDoc : ProjectState := { sampleState with project := "a" }

def migFiles : List (String × JsonFile) :=
  [("a.json", .dict aDoc),
   ("b.json", .invalid "bad"),
   ("c.json", .nondict),
   ("d.txt", .invalid "ignored"),
   ("e.json", .dict { sampleState with project := "" })]

/-- Witness for c6_migration_summary at a five-entry directory. -/
theorem c6_migration_summary_witness :
    migrate_json_states_to_sqlite "t" "output/projects" emptyDb migFiles =
      ((migFiles.filter isMigratedFile).foldl (upsertOf "t") emptyDb,
       { migrated := (migFiles.filter isMigratedFile).length,
         skipped := (migFiles.filter isSkippedFile).length,
         errors := migFiles.filterMap (errorRecordOf "output/projects") }) ∧
    aget (sqlite_upsert_full "t" emptyDb aDoc).steps ("a", "narrative_deconstructed") =
      some (rowOfStep defaultStep) := by
  have h := c6_migration_summary "t" "output/projects" emptyDb migFiles emptyDb aDoc
    "narrative_deconstructed" defaultStep
  exact ⟨h.1, h.2 (by decide) (by decide) (by decide)⟩

section C2Eval
set_option maxHeartbeats 40000000

end C2Eval
